import Mathlib

/-!
# Verification of fisheye.js (WebGPU fisheye undistortion)

Shallow embedding of the core of `fisheye.js`:

* the configuration model and its normalization (`src/types.ts`, the
  `Fisheye` class constructor / `applyDefaults` / `updateConfig`),
* the Kannala–Brandt forward distortion and its Newton inverse
  (`undistortPointNormalized`, and the forward kernel in the compute
  pipeline),
* the new-camera-matrix estimation (`computeNewCameraMatrix`),
* the GPU resource lifecycle (resize handling, double-buffered readback,
  `destroy`).

Numeric values carried by configuration objects are embedded as rationals
(`ℚ`): the lifecycle code only copies, compares and clamps them.  The
camera-model math is embedded over `ℝ` because it involves `sqrt`, `atan`,
`tan` and `π`.
-/

namespace Fisheye

/-! ## Configuration data model (`src/types.ts`)

The TypeScript interfaces `KMatrix`, `DVector`, `ImageSize`, the
`FisheyeProjection` tagged union, `PTZOptions` and `PaneLayout` are
embedded as Lean structures; optional TS fields become `Option`.
-/

/-- `KMatrix`: camera intrinsics; `cx`, `cy`, `alpha` are optional. -/
structure KMatrix where
  fx : ℚ
  fy : ℚ
  cx : Option ℚ
  cy : Option ℚ
  alpha : Option ℚ
  deriving DecidableEq, Repr

/-- `DVector`: the four Kannala–Brandt distortion coefficients. -/
structure DVector where
  k1 : ℚ
  k2 : ℚ
  k3 : ℚ
  k4 : ℚ
  deriving DecidableEq, Repr

/-- `ImageSize`: output dimensions. -/
structure ImageSize where
  width : ℚ
  height : ℚ
  deriving DecidableEq, Repr

/-- `NewCameraMatrix` fields of a manual rectilinear projection. -/
structure ManualMatrix where
  newFx : ℚ
  newFy : ℚ
  newCx : Option ℚ
  newCy : Option ℚ
  deriving DecidableEq, Repr

/-- `FisheyeProjection`: tagged union of the four projection kinds;
rectilinear is either auto or manual (`mode: "manual"` with a P matrix). -/
inductive Projection where
  | rectilinearAuto : Projection
  | rectilinearManual : ManualMatrix → Projection
  | equirectangular : Projection
  | original : Projection
  | cylindrical : Projection
  deriving DecidableEq, Repr

/-- `DEFAULT_PROJECTION = { kind: "rectilinear" }` (auto). -/
def DEFAULT_PROJECTION : Projection := Projection.rectilinearAuto

/-- `PTZOptions`: optional pan/tilt/zoom. -/
structure PTZOptions where
  pan : Option ℚ
  tilt : Option ℚ
  zoom : Option ℚ
  deriving DecidableEq, Repr

/-- Orientation of a two-pane layout. -/
inductive PaneOrientation where
  | horizontal : PaneOrientation
  | vertical : PaneOrientation
  deriving DecidableEq, Repr

/-- `PaneLayout`: 2-pane (optional orientation) or 4-pane. -/
inductive PaneLayout where
  | twoPane : Option PaneOrientation → PaneLayout
  | fourPane : PaneLayout
  deriving DecidableEq, Repr

/-- `FisheyeConfig`: the normalized, grouped configuration.  `ptz` and
`pane` are the optional mode fields declared on the interface. -/
structure FisheyeConfig where
  K : Option KMatrix
  D : DVector
  size : ImageSize
  balance : ℚ
  fovScale : ℚ
  projection : Projection
  ptz : Option PTZOptions
  pane : Option PaneLayout
  deriving DecidableEq, Repr

/-- Flat user-facing options (`FisheyeOptionsStrict`): every field
optional. -/
structure FlatOptions where
  fx : Option ℚ
  fy : Option ℚ
  cx : Option ℚ
  cy : Option ℚ
  alpha : Option ℚ
  k1 : Option ℚ
  k2 : Option ℚ
  k3 : Option ℚ
  k4 : Option ℚ
  width : Option ℚ
  height : Option ℚ
  balance : Option ℚ
  fovScale : Option ℚ
  projection : Option Projection
  ptz : Option PTZOptions
  pane : Option PaneLayout
  deriving DecidableEq, Repr

/-- `FisheyeOptions = FisheyeOptionsStrict | FisheyeConfig`.  The
constructor distinguishes the two shapes at runtime with
`isGrouped = "D" in options && "size" in options`; flat options never
carry `D`/`size` keys and grouped ones always do, so the union is embedded
as a sum. -/
inductive FisheyeOptions where
  | grouped : FisheyeConfig → FisheyeOptions
  | flat : FlatOptions → FisheyeOptions
  deriving DecidableEq, Repr

/-- `validateModeExclusivity` (src/types.ts): throws when both `ptz` and
`pane` are defined. -/
def validateModeExclusivity (ptz : Option PTZOptions) (pane : Option PaneLayout) :
    Except String Unit :=
  if ptz.isSome ∧ pane.isSome then
    Except.error "PTZ and Pane modes are mutually exclusive. Use only one."
  else
    Except.ok ()

/-- `Math.max(0, Math.min(1, b))`, the balance clamp used by
`applyDefaults`. -/
def clamp01 (b : ℚ) : ℚ := max 0 (min 1 b)

/-- `Fisheye.applyDefaults` (src/fisheye.ts): normalizes flat or grouped
options into a `FisheyeConfig`.  The grouped branch copies `K`, `D`,
`size`, `fovScale`, `projection` and clamps `balance`; the flat branch
derives `K` from `fx`/`fy` (only when both are present), defaults the
distortion coefficients to 0, the size to 300×150, the balance to 0
(then clamps), the fovScale to 1 and the projection to
`DEFAULT_PROJECTION`.  Neither branch copies `ptz`/`pane` into the result
and neither branch can throw. -/
def applyDefaults : FisheyeOptions → FisheyeConfig
  | FisheyeOptions.grouped g =>
      { K := g.K
        D := g.D
        size := g.size
        balance := clamp01 g.balance
        fovScale := g.fovScale
        projection := g.projection
        ptz := none
        pane := none }
  | FisheyeOptions.flat f =>
      { K :=
          match f.fx, f.fy with
          | some fx, some fy =>
              some { fx := fx, fy := fy, cx := f.cx, cy := f.cy, alpha := f.alpha }
          | _, _ => none
        D := { k1 := f.k1.getD 0, k2 := f.k2.getD 0, k3 := f.k3.getD 0,
               k4 := f.k4.getD 0 }
        size := { width := f.width.getD 300, height := f.height.getD 150 }
        balance := clamp01 (f.balance.getD 0)
        fovScale := f.fovScale.getD 1
        projection := f.projection.getD DEFAULT_PROJECTION
        ptz := none
        pane := none }

/-- `Partial<FisheyeOptions>` as merged by `updateConfig`: each field of
the grouped configuration may be present (overriding) or absent.  A
present optional field carries its full value (e.g. `K` may be overridden
to `none`). -/
structure ConfigUpdate where
  K : Option (Option KMatrix)
  D : Option DVector
  size : Option ImageSize
  balance : Option ℚ
  fovScale : Option ℚ
  projection : Option Projection
  ptz : Option (Option PTZOptions)
  pane : Option (Option PaneLayout)
  deriving DecidableEq, Repr

/-- The spread `{ ...this.config, ...options }` in `updateConfig`: keys
present in `options` override the stored configuration. -/
def mergeConfig (cfg : FisheyeConfig) (u : ConfigUpdate) : FisheyeConfig :=
  { K := u.K.getD cfg.K
    D := u.D.getD cfg.D
    size := u.size.getD cfg.size
    balance := u.balance.getD cfg.balance
    fovScale := u.fovScale.getD cfg.fovScale
    projection := u.projection.getD cfg.projection
    ptz := u.ptz.getD cfg.ptz
    pane := u.pane.getD cfg.pane }

/-- The configuration produced by `updateConfig(options)`:
`applyDefaults({ ...this.config, ...options })`.  The merged object always
carries `D` and `size` (the stored config has them), so `applyDefaults`
takes the grouped branch. -/
def updateConfigNormalized (cfg : FisheyeConfig) (u : ConfigUpdate) : FisheyeConfig :=
  applyDefaults (FisheyeOptions.grouped (mergeConfig cfg u))

/-- An update with no keys (identity merge). -/
def emptyUpdate : ConfigUpdate :=
  { K := none, D := none, size := none, balance := none, fovScale := none,
    projection := none, ptz := none, pane := none }

/-- Zero distortion coefficients. -/
def zeroD : DVector := { k1 := 0, k2 := 0, k3 := 0, k4 := 0 }

/-- A concrete grouped configuration that sets both `ptz` and `pane`. -/
def bothModesConfig : FisheyeConfig :=
  { K := none
    D := zeroD
    size := { width := 300, height := 150 }
    balance := 0
    fovScale := 1
    projection := DEFAULT_PROJECTION
    ptz := some { pan := some 0, tilt := some 0, zoom := some 1 }
    pane := some PaneLayout.fourPane }

/-! ## Double-buffered readback (`readbackToVideoFrame`, src/fisheye.ts)

The readback path keeps two GPU buffers, a write/read role index
(`readbackIndex`), and per-buffer has-data flags (`readbackHasData`).
Buffer contents are embedded as natural-number frame tags (`slot0`,
`slot1`); the texture→buffer copy stores the current frame's tag into the
write slot. -/

/-- The mutable readback fields of the `Fisheye` class. -/
structure ReadbackState where
  index : ℕ
  hasData0 : Bool
  hasData1 : Bool
  slot0 : ℕ
  slot1 : ℕ
  deriving DecidableEq, Repr

/-- Content of readback buffer `i` (`readbackBuffers[i]`). -/
def slotAt (s : ReadbackState) (i : ℕ) : ℕ :=
  if i = 0 then s.slot0 else s.slot1

/-- `readbackHasData[i]`. -/
def hasDataAt (s : ReadbackState) (i : ℕ) : Bool :=
  if i = 0 then s.hasData0 else s.hasData1

/-- Store `v` into readback buffer `i`. -/
def setSlot (s : ReadbackState) (i : ℕ) (v : ℕ) : ReadbackState :=
  if i = 0 then { s with slot0 := v } else { s with slot1 := v }

/-- Set `readbackHasData[i] = true`. -/
def setHasData (s : ReadbackState) (i : ℕ) : ReadbackState :=
  if i = 0 then { s with hasData0 := true } else { s with hasData1 := true }

/-- One call of `readbackToVideoFrame`, given the frame tag just rendered:
copy the texture into the buffer at the current write index, mark that
slot as holding data, flip the role index, then map for reading the other
slot when it already holds data, else the buffer just written.  Returns
the next state and the frame tag the caller receives. -/
def readbackStep (s : ReadbackState) (frameData : ℕ) : ReadbackState × ℕ :=
  let writeIndex := s.index
  let readIndex := 1 - writeIndex
  let s1 := setSlot s writeIndex frameData
  let s2 := setHasData s1 writeIndex
  let s3 := { s2 with index := readIndex }
  let out := if hasDataAt s3 readIndex then slotAt s3 readIndex else slotAt s3 writeIndex
  (s3, out)

/-- Readback state just after (re)allocation of the buffers
(`readbackIndex = 0`, `readbackHasData = [false, false]`); slot contents
start as garbage `0`. -/
def initialReadback : ReadbackState :=
  { index := 0, hasData0 := false, hasData1 := false, slot0 := 0, slot1 := 0 }

/-- State after the first `n` readback calls, where call `i` renders frame
tag `f i`. -/
def readbackTrace (f : ℕ → ℕ) : ℕ → ReadbackState
  | 0 => initialReadback
  | n + 1 => (readbackStep (readbackTrace f n) (f (n + 1))).1

/-- The frame tag returned by readback call `n` (`n ≥ 1`). -/
def readbackOut (f : ℕ → ℕ) (n : ℕ) : ℕ :=
  (readbackStep (readbackTrace f (n - 1)) (f n)).2

/-! ## Orchestrator resource lifecycle (`Fisheye` class, src/fisheye.ts)

The nullable GPU handles of the class are embedded as `Option ℕ` handle
tags; `destroyed` records every handle on which `.destroy()` was called
and `fresh` supplies new tags.  `root`, `uniformBuffer`, `pipeline` and
`bindGroup` are tracked as booleans (their contents are modelled by the
camera-model functions elsewhere in this file).  Numeric uniform values
are not part of this state machine; only the allocate/reuse/destroy
branching of the source is.  GPU device acquisition (`tgpu.init`) is
assumed to succeed. -/

/-- `isRectilinearManual` (src/types.ts). -/
def isRectilinearManual : Projection → Bool
  | Projection.rectilinearManual _ => true
  | _ => false

/-- `calculateBytesPerRow`: `Math.ceil(width·4 / 256) · 256`. -/
def calculateBytesPerRow (width : ℚ) : ℚ := ⌈width * 4 / 256⌉ * 256

/-- The mutable fields of the `Fisheye` class that drive resource
lifecycle decisions. -/
structure OrchState where
  config : FisheyeConfig
  root : Bool
  uniformBuffer : Bool
  pipeline : Bool
  bindGroup : Bool
  inputTexture : Option ℕ
  inputTextureSize : ℚ × ℚ
  outputTexture : Option ℕ
  outputTextureSize : ℚ × ℚ
  readbackBuffers : Option (ℕ × ℕ)
  rb : ReadbackState
  readbackBytesPerRow : ℚ
  readbackActualBytesPerRow : ℚ
  pixelBuffer : Option ℕ
  uniformInputWidth : ℚ
  uniformInputHeight : ℚ
  cachedNewCameraMatrix : Bool
  destroyed : List ℕ
  fresh : ℕ
  deriving DecidableEq, Repr

/-- The constructor `new Fisheye(options)`: normalize the options; no GPU
resource exists yet. -/
def mkFisheye (options : FisheyeOptions) : OrchState :=
  { config := applyDefaults options
    root := false
    uniformBuffer := false
    pipeline := false
    bindGroup := false
    inputTexture := none
    inputTextureSize := (0, 0)
    outputTexture := none
    outputTextureSize := (0, 0)
    readbackBuffers := none
    rb := initialReadback
    readbackBytesPerRow := 0
    readbackActualBytesPerRow := 0
    pixelBuffer := none
    uniformInputWidth := 0
    uniformInputHeight := 0
    cachedNewCameraMatrix := false
    destroyed := []
    fresh := 0 }

/-- `initialize()`: idempotent — returns immediately when `root` exists,
otherwise acquires the device, creates the uniform buffer and builds the
compute pipeline. -/
def initializeM (s : OrchState) : OrchState :=
  if s.root then s
  else { s with root := true, uniformBuffer := true, pipeline := true }

/-- The handles carried by an optional buffer pair, as a list. -/
def pairHandles : Option (ℕ × ℕ) → List ℕ
  | none => []
  | some (a, b) => [a, b]

/-- `destroy()`: destroy every held GPU handle and null all fields. -/
def destroyM (s : OrchState) : OrchState :=
  { s with
    destroyed := s.destroyed ++ s.inputTexture.toList ++ s.outputTexture.toList
      ++ pairHandles s.readbackBuffers
    inputTexture := none
    outputTexture := none
    readbackBuffers := none
    rb := initialReadback
    uniformBuffer := false
    root := false
    bindGroup := false
    pipeline := false
    readbackBytesPerRow := 0
    readbackActualBytesPerRow := 0
    pixelBuffer := none
    inputTextureSize := (0, 0)
    outputTextureSize := (0, 0)
    cachedNewCameraMatrix := false }

/-- `updateUniforms()`: early-returns when the uniform buffer is absent;
otherwise `getUniformData()` recomputes and caches the new camera matrix
(auto rectilinear and the other computed projections), while a manual
rectilinear projection bypasses the cache. -/
def updateUniformsM (s : OrchState) : OrchState :=
  if s.uniformBuffer then
    if isRectilinearManual s.config.projection then s
    else { s with cachedNewCameraMatrix := true }
  else s

/-- `updateConfig(options)`: merge and renormalize the configuration,
invalidate the cached camera matrix, rewrite the uniforms, and only when
the output dimensions changed destroy and null the output texture, both
readback buffers and the pixel-staging buffer (resetting the readback
bookkeeping) so the next `undistort` reallocates them. -/
def updateConfigM (s : OrchState) (u : ConfigUpdate) : OrchState :=
  let prevWidth := s.config.size.width
  let prevHeight := s.config.size.height
  let s1 := { s with config := updateConfigNormalized s.config u,
                     cachedNewCameraMatrix := false }
  let s2 := updateUniformsM s1
  if s2.config.size.width ≠ prevWidth ∨ s2.config.size.height ≠ prevHeight then
    { s2 with
      destroyed := s2.destroyed ++ s2.outputTexture.toList
        ++ pairHandles s2.readbackBuffers
      outputTexture := none
      readbackBuffers := none
      rb := initialReadback
      outputTextureSize := (0, 0)
      readbackBytesPerRow := 0
      readbackActualBytesPerRow := 0
      pixelBuffer := none }
  else s2

/-- The input-texture reconciliation of `undistort`: recreate the input
texture (destroying the stale one and invalidating the bind group) when
it is absent or its size differs from the frame's. -/
def ensureInputTexture (s : OrchState) (frameW frameH : ℚ) : OrchState :=
  if s.inputTexture = none ∨ s.inputTextureSize ≠ (frameW, frameH) then
    { s with
      destroyed := s.destroyed ++ s.inputTexture.toList
      inputTexture := some s.fresh
      fresh := s.fresh + 1
      inputTextureSize := (frameW, frameH)
      bindGroup := false }
  else s

/-- The output-side reconciliation of `undistort`: when the output
texture is absent or its size differs from the configured output size,
destroy the output texture and both readback buffers and recreate them
(with fresh readback bookkeeping and pixel-staging buffer), invalidating
the bind group. -/
def ensureOutputResources (s : OrchState) : OrchState :=
  if s.outputTexture = none ∨
      s.outputTextureSize ≠ (s.config.size.width, s.config.size.height) then
    { s with
      destroyed := s.destroyed ++ s.outputTexture.toList
        ++ pairHandles s.readbackBuffers
      outputTexture := some s.fresh
      readbackBytesPerRow := calculateBytesPerRow s.config.size.width
      readbackActualBytesPerRow := s.config.size.width * 4
      pixelBuffer := some (s.fresh + 1)
      readbackBuffers := some (s.fresh + 2, s.fresh + 3)
      fresh := s.fresh + 4
      rb := initialReadback
      outputTextureSize := (s.config.size.width, s.config.size.height)
      bindGroup := false }
  else s

/-- The input-dimension bookkeeping of `undistort`: a changed frame size
invalidates the cached new camera matrix. -/
def refreshUniformInput (s : OrchState) (frameW frameH : ℚ) : OrchState :=
  if s.uniformInputWidth ≠ frameW ∨ s.uniformInputHeight ≠ frameH then
    { s with uniformInputWidth := frameW, uniformInputHeight := frameH,
             cachedNewCameraMatrix := false }
  else s

/-- The bind-group rebuild of `undistort`: only when invalidated. -/
def ensureBindGroup (s : OrchState) : OrchState :=
  if s.bindGroup then s else { s with bindGroup := true }

/-- `undistort(frame)`: lazy initialization, input/output resource
reconciliation, uniform refresh, bind-group rebuild, dispatch and
double-buffered readback.  `frameW × frameH` are the frame's display
dimensions and `tag` identifies the frame's pixel data for the readback
model.  Every `throw` of the source is an `Except.error`. -/
def undistortM (s0 : OrchState) (frameW frameH : ℚ) (tag : ℕ) :
    Except String OrchState :=
  let s1 := initializeM s0
  if ¬(s1.root ∧ s1.uniformBuffer) then
    Except.error "GPU resources not initialized"
  else
    let s2 := ensureInputTexture s1 frameW frameH
    let s3 := ensureOutputResources s2
    if s3.inputTexture = none ∨ s3.outputTexture = none then
      Except.error "Textures not initialized"
    else
      let s4 := refreshUniformInput s3 frameW frameH
      let s5 := updateUniformsM s4
      let s6 := ensureBindGroup s5
      if ¬s6.pipeline ∨ s6.outputTexture = none then
        Except.error "Compute pipeline or output texture not initialized"
      else
        match s6.readbackBuffers with
        | none => Except.error "Readback buffer not initialized"
        | some _ => Except.ok { s6 with rb := (readbackStep s6.rb tag).1 }

/-- Whether an `Except` result is a success. -/
def exceptIsOk : Except String OrchState → Bool
  | Except.ok _ => true
  | Except.error _ => false

/-- The `root` flag of a successful result (`false` on error). -/
def rootAfter : Except String OrchState → Bool
  | Except.ok s => s.root
  | Except.error _ => false

/-- A concrete state holding allocated output-side resources (handles
10–13), as left behind by a completed `undistort` call at the default
300×150 output size. -/
def sampleAllocatedState : OrchState :=
  { config :=
      { K := none, D := zeroD, size := { width := 300, height := 150 },
        balance := 0, fovScale := 1, projection := DEFAULT_PROJECTION,
        ptz := none, pane := none }
    root := true
    uniformBuffer := true
    pipeline := true
    bindGroup := true
    inputTexture := some 9
    inputTextureSize := (16, 16)
    outputTexture := some 10
    outputTextureSize := (300, 150)
    readbackBuffers := some (11, 12)
    rb := { index := 1, hasData0 := true, hasData1 := false, slot0 := 1, slot1 := 0 }
    readbackBytesPerRow := 1280
    readbackActualBytesPerRow := 1200
    pixelBuffer := some 13
    uniformInputWidth := 16
    uniformInputHeight := 16
    cachedNewCameraMatrix := true
    destroyed := []
    fresh := 14 }

/-- A configuration update that changes only the output width. -/
def widthChangeUpdate : ConfigUpdate :=
  { K := none, D := none, size := some { width := 400, height := 150 },
    balance := none, fovScale := none, projection := none,
    ptz := none, pane := none }

/-- Flat options with every field omitted (the constructor default `{}`). -/
def defaultFlatOptions : FlatOptions :=
  { fx := none, fy := none, cx := none, cy := none, alpha := none,
    k1 := none, k2 := none, k3 := none, k4 := none,
    width := none, height := none, balance := none, fovScale := none,
    projection := none, ptz := none, pane := none }

/-! ## Camera model (Kannala–Brandt forward distortion, Newton inverse,
new-camera-matrix estimation)

These embeddings are over `ℝ`; JavaScript `Math.sqrt/atan/tan/PI` become
`Real.sqrt/arctan/tan/pi`. -/

noncomputable section CameraModel

open Real

/-- The Kannala–Brandt forward polynomial
`θ·(1 + k1·θ² + k2·θ⁴ + k3·θ⁶ + k4·θ⁸)` shared by the compute kernel
(`thetaD`) and the Newton residual `f`. -/
def thetaPoly (k1 k2 k3 k4 θ : ℝ) : ℝ :=
  θ * (1 + k1 * θ ^ 2 + k2 * θ ^ 4 + k3 * θ ^ 6 + k4 * θ ^ 8)

/-- Its derivative `1 + 3k1·θ² + 5k2·θ⁴ + 7k3·θ⁶ + 9k4·θ⁸` (`fPrime`). -/
def thetaPolyDeriv (k1 k2 k3 k4 θ : ℝ) : ℝ :=
  1 + 3 * k1 * θ ^ 2 + 5 * k2 * θ ^ 4 + 7 * k3 * θ ^ 6 + 9 * k4 * θ ^ 8

/-- The Newton loop of `undistortPointNormalized`
(`for (let i = 0; i < 20; i++) ...` with fuel as the remaining iteration
count): update `θ ← θ − f(θ)/f'(θ)`, breaking after the update once the
step magnitude drops below `1e-10`. -/
def newtonIter (k1 k2 k3 k4 thetaDClipped : ℝ) : ℕ → ℝ → ℝ
  | 0, theta => theta
  | n + 1, theta =>
    let theta2 := theta * theta
    let theta4 := theta2 * theta2
    let theta6 := theta4 * theta2
    let theta8 := theta4 * theta4
    let f := theta * (1 + k1 * theta2 + k2 * theta4 + k3 * theta6 + k4 * theta8)
      - thetaDClipped
    let fPrime := 1 + 3 * k1 * theta2 + 5 * k2 * theta4 + 7 * k3 * theta6
      + 9 * k4 * theta8
    let thetaFix := f / fPrime
    let theta' := theta - thetaFix
    if |thetaFix| < 1e-10 then theta'
    else newtonIter k1 k2 k3 k4 thetaDClipped n theta'

/-- `Math.min(Math.max(-Math.PI / 2, thetaD), Math.PI / 2)`. -/
def clipTheta (thetaD : ℝ) : ℝ :=
  min (max (-(π / 2)) thetaD) (π / 2)

/-- The angle solved by the Newton inverse for a distorted radius
`θ_d` (the `theta` of `undistortPointNormalized` after the loop). -/
def undistortAngle (k1 k2 k3 k4 thetaD : ℝ) : ℝ :=
  newtonIter k1 k2 k3 k4 (clipTheta thetaD) 20 (clipTheta thetaD)

/-- `undistortPointNormalized` (src/fisheye.ts): distorted radius from
the point's magnitude, clipped to `[−π/2, π/2]`; identity on the
near-axis case `|θ_d| < 1e-8`; otherwise Newton-solve the angle and
rescale by `tan(θ)/θ_d`. -/
def undistortPointNormalized (distortedX distortedY k1 k2 k3 k4 : ℝ) : ℝ × ℝ :=
  let thetaD := Real.sqrt (distortedX * distortedX + distortedY * distortedY)
  let thetaDClipped := min (max (-(π / 2)) thetaD) (π / 2)
  if |thetaDClipped| < 1e-8 then (distortedX, distortedY)
  else
    let theta := newtonIter k1 k2 k3 k4 thetaDClipped 20 thetaDClipped
    let scale := Real.tan theta / thetaDClipped
    (distortedX * scale, distortedY * scale)

/-- The forward distortion applied by the compute kernel to a normalized
point (pipeline lines: `r`, `theta`, `thetaD`, `safeR`, `scale`,
`distorted`). -/
def kernelForwardDistort (k1 k2 k3 k4 normX normY : ℝ) : ℝ × ℝ :=
  let r := Real.sqrt (normX * normX + normY * normY)
  let theta := Real.arctan r
  let theta2 := theta * theta
  let theta4 := theta2 * theta2
  let theta6 := theta4 * theta2
  let theta8 := theta4 * theta4
  let thetaD := theta * (1 + k1 * theta2 + k2 * theta4 + k3 * theta6 + k4 * theta8)
  let safeR := max r 1e-8
  let scale := thetaD / safeR
  (normX * scale, normY * scale)

/-! ### Specification-side restatement of `undistortPointNormalized`
(for the refinement claim): clipping written piecewise, and the Newton
loop written as twenty iterations of a step function that carries an
explicit early-stop flag. -/

/-- Clipping into `[−π/2, π/2]`, written piecewise. -/
def specClip (thetaD : ℝ) : ℝ :=
  if thetaD < -(π / 2) then -(π / 2)
  else if π / 2 < thetaD then π / 2
  else thetaD

/-- One Newton step `θ ← θ − f(θ)/f'(θ)` with an early-stop flag that
latches once the step magnitude falls below `1e-10`. -/
def specNewtonStep (k1 k2 k3 k4 c : ℝ) (p : ℝ × Bool) : ℝ × Bool :=
  if p.2 then p
  else
    let fix := (thetaPoly k1 k2 k3 k4 p.1 - c) / thetaPolyDeriv k1 k2 k3 k4 p.1
    if |fix| < 1e-10 then (p.1 - fix, true) else (p.1 - fix, false)

/-- At most 20 Newton iterations with early stop. -/
def specNewton (k1 k2 k3 k4 c theta0 : ℝ) : ℝ :=
  ((specNewtonStep k1 k2 k3 k4 c)^[20] (theta0, false)).1

/-- `undistortPointNormalized` as the claim states it: `θ_d = |(x,y)|`,
clipped into `[−π/2, π/2]`; input returned unchanged when
`|clipped θ_d| < 1e-8`; else at most 20 Newton steps on
`f(θ) = θ·(1+k1θ²+k2θ⁴+k3θ⁶+k4θ⁸) − θ_d` with derivative
`f'(θ) = 1+3k1θ²+5k2θ⁴+7k3θ⁶+9k4θ⁸`, stopping early below `1e-10`, then
the input scaled by `tan(θ)/θ_d`. -/
def specUndistortPointNormalized (x y k1 k2 k3 k4 : ℝ) : ℝ × ℝ :=
  let thetaD := Real.sqrt (x * x + y * y)
  let c := specClip thetaD
  if |c| < 1e-8 then (x, y)
  else
    let theta := specNewton k1 k2 k3 k4 c c
    (x * (Real.tan theta / c), y * (Real.tan theta / c))

/-! ### New-camera-matrix estimation (`computeNewCameraMatrix`) -/

/-- Camera intrinsics over `ℝ` (`K` of the config; `cx`, `cy`, `alpha`
optional). -/
structure KMatrixR where
  fx : ℝ
  fy : ℝ
  cx : Option ℝ
  cy : Option ℝ
  alpha : Option ℝ

/-- The configuration fields read by `computeNewCameraMatrix`. -/
structure CameraConfigR where
  K : Option KMatrixR
  k1 : ℝ
  k2 : ℝ
  k3 : ℝ
  k4 : ℝ
  sizeWidth : ℝ
  sizeHeight : ℝ
  balance : ℝ
  fovScale : ℝ

/-- The derived `{newFx, newFy, newCx, newCy}`. -/
structure NewCameraMatrixR where
  newFx : ℝ
  newFy : ℝ
  newCx : ℝ
  newCy : ℝ

/-- `undistortPixelToNormalized`: pixel → normalized
(`(p − c)/f`) followed by the Newton inverse with the config's
distortion coefficients. -/
def undistortPixelToNormalized (cfg : CameraConfigR) (px py fx fy cx cy : ℝ) :
    ℝ × ℝ :=
  undistortPointNormalized ((px - cx) / fx) ((py - cy) / fy)
    cfg.k1 cfg.k2 cfg.k3 cfg.k4

/-- `Number.MAX_VALUE` (the fold seed of the bounding-box loop). -/
def NUMBER_MAX_VALUE : ℝ := 1.7976931348623157e308

/-- `K?.fx ?? inputWidth`. -/
def ncmFx (cfg : CameraConfigR) (w : ℝ) : ℝ := (cfg.K.map KMatrixR.fx).getD w

/-- `K?.fy ?? inputWidth` (the source defaults `fy` to the input width,
not the height). -/
def ncmFy (cfg : CameraConfigR) (w : ℝ) : ℝ := (cfg.K.map KMatrixR.fy).getD w

/-- `K?.cx ?? inputWidth / 2`. -/
def ncmCx (cfg : CameraConfigR) (w : ℝ) : ℝ := (cfg.K.bind KMatrixR.cx).getD (w / 2)

/-- `K?.cy ?? inputHeight / 2`. -/
def ncmCy (cfg : CameraConfigR) (h : ℝ) : ℝ := (cfg.K.bind KMatrixR.cy).getD (h / 2)

/-- `aspectRatio = fx / fy`. -/
def ncmAspect (cfg : CameraConfigR) (w : ℝ) : ℝ := ncmFx cfg w / ncmFy cfg w

/-- Undistorted top edge midpoint `(w/2, 0)`. -/
def ncmU1 (cfg : CameraConfigR) (w h : ℝ) : ℝ × ℝ :=
  undistortPixelToNormalized cfg (w / 2) 0 (ncmFx cfg w) (ncmFy cfg w)
    (ncmCx cfg w) (ncmCy cfg h)

/-- Undistorted right edge midpoint `(w, h/2)`. -/
def ncmU2 (cfg : CameraConfigR) (w h : ℝ) : ℝ × ℝ :=
  undistortPixelToNormalized cfg w (h / 2) (ncmFx cfg w) (ncmFy cfg w)
    (ncmCx cfg w) (ncmCy cfg h)

/-- Undistorted bottom edge midpoint `(w/2, h)`. -/
def ncmU3 (cfg : CameraConfigR) (w h : ℝ) : ℝ × ℝ :=
  undistortPixelToNormalized cfg (w / 2) h (ncmFx cfg w) (ncmFy cfg w)
    (ncmCx cfg w) (ncmCy cfg h)

/-- Undistorted left edge midpoint `(0, h/2)`. -/
def ncmU4 (cfg : CameraConfigR) (w h : ℝ) : ℝ × ℝ :=
  undistortPixelToNormalized cfg 0 (h / 2) (ncmFx cfg w) (ncmFy cfg w)
    (ncmCx cfg w) (ncmCy cfg h)

/-- Centroid of the four undistorted edge midpoints. -/
def ncmCenter (cfg : CameraConfigR) (w h : ℝ) : ℝ × ℝ :=
  (((ncmU1 cfg w h).1 + (ncmU2 cfg w h).1 + (ncmU3 cfg w h).1 + (ncmU4 cfg w h).1) / 4,
   ((ncmU1 cfg w h).2 + (ncmU2 cfg w h).2 + (ncmU3 cfg w h).2 + (ncmU4 cfg w h).2) / 4)

/-- `cn`: the centroid with its y rescaled by the aspect ratio. -/
def ncmCn (cfg : CameraConfigR) (w h : ℝ) : ℝ × ℝ :=
  ((ncmCenter cfg w h).1, (ncmCenter cfg w h).2 * ncmAspect cfg w)

/-- The aspect-rescaled edge points. -/
def ncmV1 (cfg : CameraConfigR) (w h : ℝ) : ℝ × ℝ :=
  ((ncmU1 cfg w h).1, (ncmU1 cfg w h).2 * ncmAspect cfg w)

/-- Second aspect-rescaled edge point. -/
def ncmV2 (cfg : CameraConfigR) (w h : ℝ) : ℝ × ℝ :=
  ((ncmU2 cfg w h).1, (ncmU2 cfg w h).2 * ncmAspect cfg w)

/-- Third aspect-rescaled edge point. -/
def ncmV3 (cfg : CameraConfigR) (w h : ℝ) : ℝ × ℝ :=
  ((ncmU3 cfg w h).1, (ncmU3 cfg w h).2 * ncmAspect cfg w)

/-- Fourth aspect-rescaled edge point. -/
def ncmV4 (cfg : CameraConfigR) (w h : ℝ) : ℝ × ℝ :=
  ((ncmU4 cfg w h).1, (ncmU4 cfg w h).2 * ncmAspect cfg w)

/-- `minX`: fold of `Math.min` over the rescaled xs, seeded with
`Number.MAX_VALUE`. -/
def ncmMinX (cfg : CameraConfigR) (w h : ℝ) : ℝ :=
  min (min (min (min NUMBER_MAX_VALUE (ncmV1 cfg w h).1) (ncmV2 cfg w h).1)
    (ncmV3 cfg w h).1) (ncmV4 cfg w h).1

/-- `maxX`: fold of `Math.max`, seeded with `-Number.MAX_VALUE`. -/
def ncmMaxX (cfg : CameraConfigR) (w h : ℝ) : ℝ :=
  max (max (max (max (-NUMBER_MAX_VALUE) (ncmV1 cfg w h).1) (ncmV2 cfg w h).1)
    (ncmV3 cfg w h).1) (ncmV4 cfg w h).1

/-- `minY` of the rescaled ys. -/
def ncmMinY (cfg : CameraConfigR) (w h : ℝ) : ℝ :=
  min (min (min (min NUMBER_MAX_VALUE (ncmV1 cfg w h).2) (ncmV2 cfg w h).2)
    (ncmV3 cfg w h).2) (ncmV4 cfg w h).2

/-- `maxY` of the rescaled ys. -/
def ncmMaxY (cfg : CameraConfigR) (w h : ℝ) : ℝ :=
  max (max (max (max (-NUMBER_MAX_VALUE) (ncmV1 cfg w h).2) (ncmV2 cfg w h).2)
    (ncmV3 cfg w h).2) (ncmV4 cfg w h).2

/-- First edge-derived focal candidate `f1 = (w·0.5)/(cn.x − minX)`. -/
def ncmF1 (cfg : CameraConfigR) (w h : ℝ) : ℝ :=
  (w * 0.5) / ((ncmCn cfg w h).1 - ncmMinX cfg w h)

/-- `f2 = (w·0.5)/(maxX − cn.x)`. -/
def ncmF2 (cfg : CameraConfigR) (w h : ℝ) : ℝ :=
  (w * 0.5) / (ncmMaxX cfg w h - (ncmCn cfg w h).1)

/-- `f3 = (h·0.5·aspect)/(cn.y − minY)`. -/
def ncmF3 (cfg : CameraConfigR) (w h : ℝ) : ℝ :=
  (h * 0.5 * ncmAspect cfg w) / ((ncmCn cfg w h).2 - ncmMinY cfg w h)

/-- `f4 = (h·0.5·aspect)/(maxY − cn.y)`. -/
def ncmF4 (cfg : CameraConfigR) (w h : ℝ) : ℝ :=
  (h * 0.5 * ncmAspect cfg w) / (ncmMaxY cfg w h - (ncmCn cfg w h).2)

/-- `fMin = Math.min(f1, f2, f3, f4)`. -/
def ncmFMin (cfg : CameraConfigR) (w h : ℝ) : ℝ :=
  min (min (min (ncmF1 cfg w h) (ncmF2 cfg w h)) (ncmF3 cfg w h)) (ncmF4 cfg w h)

/-- `fMax = Math.max(f1, f2, f3, f4)`. -/
def ncmFMax (cfg : CameraConfigR) (w h : ℝ) : ℝ :=
  max (max (max (ncmF1 cfg w h) (ncmF2 cfg w h)) (ncmF3 cfg w h)) (ncmF4 cfg w h)

/-- `computeNewCameraMatrix(inputWidth, inputHeight)` (src/fisheye.ts):
undistort the four edge midpoints, take their centroid, rescale
isotropically by the aspect ratio, derive the four focal candidates from
the bounding box, blend with `balance`, optionally widen by `fovScale`,
derive the principal point and scale everything to the output size. -/
def computeNewCameraMatrix (cfg : CameraConfigR) (w h : ℝ) : NewCameraMatrixR :=
  let fx := ncmFx cfg w
  let fy := ncmFy cfg w
  let cx := ncmCx cfg w
  let cy := ncmCy cfg h
  let balance := cfg.balance
  let fovScale := cfg.fovScale
  let u1 := undistortPixelToNormalized cfg (w / 2) 0 fx fy cx cy
  let u2 := undistortPixelToNormalized cfg w (h / 2) fx fy cx cy
  let u3 := undistortPixelToNormalized cfg (w / 2) h fx fy cx cy
  let u4 := undistortPixelToNormalized cfg 0 (h / 2) fx fy cx cy
  let centerX := (u1.1 + u2.1 + u3.1 + u4.1) / 4
  let centerY := (u1.2 + u2.2 + u3.2 + u4.2) / 4
  let aspectRatio := fx / fy
  let cn : ℝ × ℝ := (centerX, centerY * aspectRatio)
  let v1 : ℝ × ℝ := (u1.1, u1.2 * aspectRatio)
  let v2 : ℝ × ℝ := (u2.1, u2.2 * aspectRatio)
  let v3 : ℝ × ℝ := (u3.1, u3.2 * aspectRatio)
  let v4 : ℝ × ℝ := (u4.1, u4.2 * aspectRatio)
  let minX := min (min (min (min NUMBER_MAX_VALUE v1.1) v2.1) v3.1) v4.1
  let maxX := max (max (max (max (-NUMBER_MAX_VALUE) v1.1) v2.1) v3.1) v4.1
  let minY := min (min (min (min NUMBER_MAX_VALUE v1.2) v2.2) v3.2) v4.2
  let maxY := max (max (max (max (-NUMBER_MAX_VALUE) v1.2) v2.2) v3.2) v4.2
  let f1 := (w * 0.5) / (cn.1 - minX)
  let f2 := (w * 0.5) / (maxX - cn.1)
  let f3 := (h * 0.5 * aspectRatio) / (cn.2 - minY)
  let f4 := (h * 0.5 * aspectRatio) / (maxY - cn.2)
  let fMin := min (min (min f1 f2) f3) f4
  let fMax := max (max (max f1 f2) f3) f4
  let f0 := balance * fMin + (1 - balance) * fMax
  let f := if 0 < fovScale then f0 * (1 / fovScale) else f0
  let newCx := -cn.1 * f + w * 0.5
  let newCy := -cn.2 * f / aspectRatio + h * 0.5
  let rx := cfg.sizeWidth / w
  let ry := cfg.sizeHeight / h
  { newFx := f * rx
    newFy := (f / aspectRatio) * ry
    newCx := newCx * rx
    newCy := newCy * ry }

/-- A concrete calibration separating the focal candidates: 200×100
input, `fx = fy = 100`, centered principal point, zero distortion,
`balance = 0`, `fovScale = 1`, output size equal to the input.  The side
midpoints sit at normalized radius 1 and the top/bottom midpoints at
radius 1/2, so the x-derived candidates are `100/tan 1` and the
y-derived ones `50/tan(1/2)`. -/
def cexNCMConfig : CameraConfigR :=
  { K := some { fx := 100, fy := 100, cx := some 100, cy := some 50, alpha := none }
    k1 := 0
    k2 := 0
    k3 := 0
    k4 := 0
    sizeWidth := 200
    sizeHeight := 100
    balance := 0
    fovScale := 1 }

end CameraModel

end Fisheye

/-! ## Theorems for claims C9 and C10 -/

open Fisheye

/-- **C9.** The claim states that constructing or normalizing a Fisheye
configuration with both `ptz` and `pane` set raises a configuration error
at validation time.  The code does not: `validateModeExclusivity` would
throw on such input, but the constructor path `applyDefaults` never
invokes it — normalizing a configuration with both modes set succeeds and
silently drops both fields.  This theorem evaluates the code at the
failing input: the helper rejects the combination while `applyDefaults`
accepts it without error (it is a total function) and returns a
configuration with `ptz = none` and `pane = none`. -/
theorem C9_both_modes_not_rejected_by_constructor :
    validateModeExclusivity bothModesConfig.ptz bothModesConfig.pane =
      Except.error "PTZ and Pane modes are mutually exclusive. Use only one." ∧
    (applyDefaults (FisheyeOptions.grouped bothModesConfig)).ptz = none ∧
    (applyDefaults (FisheyeOptions.grouped bothModesConfig)).pane = none ∧
    applyDefaults (FisheyeOptions.grouped bothModesConfig) =
      { bothModesConfig with ptz := none, pane := none } := by
  refine ⟨rfl, rfl, rfl, ?_⟩
  decide

/-- **C10.** Every normalized configuration has `balance ∈ [0, 1]`:
`applyDefaults` clamps with `Math.max(0, Math.min(1, ·))` on both the
grouped and the flat branch, a missing flat `balance` defaults to `0`
before clamping, and the same holds for the configuration produced by
`updateConfig`'s merge.  Normalization never raises (both functions are
total). -/
theorem C10_balance_always_clamped (opts : FisheyeOptions) (cfg : FisheyeConfig)
    (u : ConfigUpdate) (f : FlatOptions) (hf : f.balance = none) :
    (0 ≤ (applyDefaults opts).balance ∧ (applyDefaults opts).balance ≤ 1) ∧
    (0 ≤ (updateConfigNormalized cfg u).balance ∧
      (updateConfigNormalized cfg u).balance ≤ 1) ∧
    (applyDefaults (FisheyeOptions.flat f)).balance = 0 := by
  have hclamp : ∀ b : ℚ, 0 ≤ clamp01 b ∧ clamp01 b ≤ 1 := by
    intro b
    constructor
    · exact le_max_left 0 (min 1 b)
    · exact max_le (by norm_num) (min_le_left 1 b)
  refine ⟨?_, ?_, ?_⟩
  · cases opts with
    | grouped g => exact hclamp g.balance
    | flat fo => exact hclamp (fo.balance.getD 0)
  · exact hclamp (mergeConfig cfg u).balance
  · simp [applyDefaults, hf, clamp01]

/-- Witness for C10 at a concrete input: flat options with no balance
given normalize to balance `0`, which lies in `[0, 1]`. -/
theorem C10_balance_always_clamped_witness :
    (({ fx := none, fy := none, cx := none, cy := none, alpha := none,
        k1 := none, k2 := none, k3 := none, k4 := none,
        width := none, height := none, balance := none, fovScale := none,
        projection := none, ptz := none, pane := none } : FlatOptions).balance = none) ∧
    ((0 ≤ (applyDefaults (FisheyeOptions.grouped bothModesConfig)).balance ∧
        (applyDefaults (FisheyeOptions.grouped bothModesConfig)).balance ≤ 1) ∧
      (0 ≤ (updateConfigNormalized bothModesConfig emptyUpdate).balance ∧
        (updateConfigNormalized bothModesConfig emptyUpdate).balance ≤ 1) ∧
      (applyDefaults (FisheyeOptions.flat
        { fx := none, fy := none, cx := none, cy := none, alpha := none,
          k1 := none, k2 := none, k3 := none, k4 := none,
          width := none, height := none, balance := none, fovScale := none,
          projection := none, ptz := none, pane := none })).balance = 0) :=
  ⟨rfl, C10_balance_always_clamped (FisheyeOptions.grouped bothModesConfig)
    bothModesConfig emptyUpdate _ rfl⟩

/-! ## Theorems for claim C6 (double-buffered readback) -/

/-- Invariant of the readback trace after `n ≥ 1` calls: the role index
alternates (`n % 2`), the slot written by call `n` (index `(n-1) % 2`)
holds frame `n` and is flagged, and from the second call on the other slot
still holds the previous call's frame. -/
lemma readbackTrace_invariant (f : ℕ → ℕ) :
    ∀ n, 1 ≤ n →
      (readbackTrace f n).index = n % 2 ∧
      hasDataAt (readbackTrace f n) ((n - 1) % 2) = true ∧
      hasDataAt (readbackTrace f n) (n % 2) = decide (2 ≤ n) ∧
      slotAt (readbackTrace f n) ((n - 1) % 2) = f n ∧
      (2 ≤ n → slotAt (readbackTrace f n) (n % 2) = f (n - 1)) := by
  intro n
  induction n with
  | zero => intro h; omega
  | succ n ih =>
    intro _
    rcases Nat.eq_zero_or_pos n with hn0 | hn1
    · subst hn0
      simp [readbackTrace, readbackStep, setSlot, setHasData, slotAt, hasDataAt,
        initialReadback]
    · obtain ⟨hidx, hhdW, hhdR, hslW, hslR⟩ := ih hn1
      have hdec : decide (2 ≤ n + 1) = true := decide_eq_true (by omega)
      have hmod : n % 2 = 0 ∨ n % 2 = 1 := Nat.mod_two_eq_zero_or_one n
      rcases hmod with hm | hm
      · -- n even and ≥ 1, so n ≥ 2; call n+1 writes slot 0
        have hm1 : (n - 1) % 2 = 1 := by omega
        have hm2 : (n + 1) % 2 = 1 := by omega
        have hm3 : (n + 1 - 1) % 2 = 0 := by omega
        have h1 : (readbackTrace f n).hasData1 = true := by
          simpa [hasDataAt, hm1] using hhdW
        have h2 : (readbackTrace f n).slot1 = f n := by
          simpa [slotAt, hm1] using hslW
        rw [hm] at hidx
        simp only [readbackTrace, readbackStep, setSlot, setHasData, slotAt,
          hasDataAt, hidx, hm2, hm3, hdec]
        simp [h1, h2]
      · -- n odd; call n+1 writes slot 1
        have hm1 : (n - 1) % 2 = 0 := by omega
        have hm2 : (n + 1) % 2 = 0 := by omega
        have hm3 : (n + 1 - 1) % 2 = 1 := by omega
        have h1 : (readbackTrace f n).hasData0 = true := by
          simpa [hasDataAt, hm1] using hhdW
        have h2 : (readbackTrace f n).slot0 = f n := by
          simpa [slotAt, hm1] using hslW
        rw [hm] at hidx
        simp only [readbackTrace, readbackStep, setSlot, setHasData, slotAt,
          hasDataAt, hidx, hm2, hm3, hdec]
        simp [h1, h2]

/-- **C6.** On every readback call the frame is copied into the slot at
the current write index, that slot's has-data flag is set, the role index
flips, and the mapped buffer is the other slot when its has-data flag was
already set, else the slot just written.  Consequently the first call of a
trace returns the frame just copied, and every call `k ≥ 2` returns the
frame copied on call `k − 1` (one-frame latency). -/
theorem C6_readback_double_buffering (f : ℕ → ℕ) (k : ℕ) (hk : 2 ≤ k) :
    (∀ (s : ReadbackState) (dta : ℕ), s.index ≤ 1 →
        (readbackStep s dta).1.index = 1 - s.index ∧
        slotAt (readbackStep s dta).1 s.index = dta ∧
        hasDataAt (readbackStep s dta).1 s.index = true ∧
        (readbackStep s dta).2 =
          (if hasDataAt s (1 - s.index) then slotAt s (1 - s.index) else dta)) ∧
    readbackOut f 1 = f 1 ∧
    readbackOut f k = f (k - 1) := by
  refine ⟨?_, ?_, ?_⟩
  · intro s dta hs
    interval_cases h : s.index <;>
      simp [readbackStep, setSlot, setHasData, slotAt, hasDataAt, h]
  · simp [readbackOut, readbackTrace, readbackStep, setSlot, setHasData,
      slotAt, hasDataAt, initialReadback]
  · obtain ⟨hidx, hhdW, hhdR, hslW, hslR⟩ :=
      readbackTrace_invariant f (k - 1) (by omega)
    have hmod : (k - 1) % 2 = 0 ∨ (k - 1) % 2 = 1 := Nat.mod_two_eq_zero_or_one _
    rcases Nat.lt_or_ge k 3 with hk3 | hk3
    · -- k = 2: the read slot is slot 0, written by call 1
      have hk2 : k = 2 := by omega
      subst hk2
      simp only [readbackOut]
      simp only [show (2 : ℕ) - 1 = 1 from rfl] at hidx hhdW hslW ⊢
      simp only [show (1 : ℕ) - 1 = 0 from rfl, Nat.zero_mod, Nat.one_mod] at hidx hhdW hslW
      simp only [readbackStep, setSlot, setHasData, slotAt, hasDataAt, hidx]
      simpa [slotAt, hasDataAt, hhdW] using hslW
    · -- k ≥ 3: the read slot was written by call k − 1 and is flagged
      rcases hmod with hm | hm
      · -- trace index 0: call k writes slot 0 and reads slot 1
        have hwm : (k - 1 - 1) % 2 = 1 := by omega
        rw [hm] at hidx
        rw [hwm] at hhdW hslW
        have h1 : (readbackTrace f (k - 1)).hasData1 = true := by
          simpa [hasDataAt] using hhdW
        have h2 : (readbackTrace f (k - 1)).slot1 = f (k - 1) := by
          simpa [slotAt] using hslW
        simp only [readbackOut, readbackStep, setSlot, setHasData, slotAt,
          hasDataAt, hidx]
        simp [h1, h2]
      · -- trace index 1: call k writes slot 1 and reads slot 0
        have hwm : (k - 1 - 1) % 2 = 0 := by omega
        rw [hm] at hidx
        rw [hwm] at hhdW hslW
        have h1 : (readbackTrace f (k - 1)).hasData0 = true := by
          simpa [hasDataAt] using hhdW
        have h2 : (readbackTrace f (k - 1)).slot0 = f (k - 1) := by
          simpa [slotAt] using hslW
        simp only [readbackOut, readbackStep, setSlot, setHasData, slotAt,
          hasDataAt, hidx]
        simp [h1, h2]

/-- Witness for C6 at concrete inputs: with frame tags `n + 10`, call 1
returns frame 11 (its own frame), call 5 returns frame 14 (the previous
call's frame), and a step from the freshly allocated state flips the
index to 1. -/
theorem C6_readback_double_buffering_witness :
    (readbackStep initialReadback 7).1.index = 1 ∧
    readbackOut (fun n => n + 10) 1 = 11 ∧
    readbackOut (fun n => n + 10) 5 = 14 := by
  have h := C6_readback_double_buffering (fun n => n + 10) 5 (by norm_num)
  refine ⟨?_, by simpa using h.2.1, by simpa using h.2.2⟩
  have h1 := (h.1 initialReadback 7 (by decide)).1
  simpa [initialReadback] using h1

/-! ## Theorems for claims C7 and C8 (resource lifecycle) -/

/-- `ensureOutputResources` always leaves an allocated output texture:
either it just created one, or the reuse branch's guard says one was
already there. -/
lemma ensureOutputResources_outputTexture_isSome (s : OrchState) :
    (ensureOutputResources s).outputTexture.isSome := by
  unfold ensureOutputResources
  split_ifs with hc
  · simp
  · push_neg at hc
    simp [Option.isSome_iff_ne_none, hc.1]

/-- The post-reconciliation steps of `undistort` (uniform refresh and
bind-group rebuild) do not touch the output texture, the readback
buffers, `root` or the pipeline. -/
lemma lateChain_preserve (s : OrchState) (w h : ℚ) :
    (ensureBindGroup (updateUniformsM (refreshUniformInput s w h))).outputTexture =
      s.outputTexture ∧
    (ensureBindGroup (updateUniformsM (refreshUniformInput s w h))).readbackBuffers =
      s.readbackBuffers ∧
    (ensureBindGroup (updateUniformsM (refreshUniformInput s w h))).root = s.root ∧
    (ensureBindGroup (updateUniformsM (refreshUniformInput s w h))).pipeline =
      s.pipeline := by
  unfold ensureBindGroup updateUniformsM refreshUniformInput
  split_ifs <;> simp

/-- Any successful `undistort` call leaves an allocated output texture:
the output-reconciliation branch allocates one whenever it is absent or
stale, and no later step of the call clears it. -/
lemma undistortM_ok_outputTexture (s : OrchState) (w h : ℚ) (tag : ℕ)
    (s' : OrchState) (hok : undistortM s w h tag = Except.ok s') :
    s'.outputTexture.isSome := by
  simp only [undistortM] at hok
  set u := ensureOutputResources (ensureInputTexture (initializeM s) w h) with hu
  split_ifs at hok
  rcases hrb : (ensureBindGroup (updateUniformsM (refreshUniformInput u w h))).readbackBuffers
    with _ | p
  · rw [hrb] at hok
    exact absurd hok (by simp)
  · rw [hrb] at hok
    simp only [Except.ok.injEq] at hok
    subst hok
    show (ensureBindGroup (updateUniformsM (refreshUniformInput u w h))).outputTexture.isSome
    rw [(lateChain_preserve u w h).1, hu]
    exact ensureOutputResources_outputTexture_isSome _

/-- After `destroy()`, `undistort` succeeds again: initialization is lazy,
so the call re-acquires the device and reallocates every resource. -/
lemma undistortM_after_destroy_ok (s : OrchState) (w h : ℚ) (tag : ℕ) :
    ∃ s', undistortM (destroyM s) w h tag = Except.ok s' ∧ s'.root = true := by
  simp only [undistortM]
  set s1 := initializeM (destroyM s) with hs1d
  have h1 : s1.root = true ∧ s1.uniformBuffer = true ∧ s1.pipeline = true ∧
      s1.inputTexture = none ∧ s1.outputTexture = none := by
    rw [hs1d]
    simp [initializeM, destroyM]
  set s2 := ensureInputTexture s1 w h with hs2d
  have h2 : s2.outputTexture = none ∧ s2.root = true ∧ s2.uniformBuffer = true ∧
      s2.pipeline = true ∧ s2.inputTexture = some s1.fresh := by
    rw [hs2d]
    unfold ensureInputTexture
    rw [if_pos (Or.inl h1.2.2.2.1)]
    exact ⟨h1.2.2.2.2, h1.1, h1.2.1, h1.2.2.1, rfl⟩
  set s3 := ensureOutputResources s2 with hs3d
  have h3 : s3.outputTexture = some s2.fresh ∧
      s3.readbackBuffers = some (s2.fresh + 2, s2.fresh + 3) ∧
      s3.inputTexture = s2.inputTexture ∧ s3.root = true ∧ s3.pipeline = true := by
    rw [hs3d]
    unfold ensureOutputResources
    rw [if_pos (Or.inl h2.1)]
    exact ⟨rfl, rfl, rfl, h2.2.1, h2.2.2.2.1⟩
  have hg1 : ¬¬(s1.root = true ∧ s1.uniformBuffer = true) :=
    not_not_intro ⟨h1.1, h1.2.1⟩
  rw [if_neg hg1]
  have hg2 : ¬(s3.inputTexture = none ∨ s3.outputTexture = none) := by
    rw [not_or, h3.1, h3.2.2.1, h2.2.2.2.2]
    simp
  rw [if_neg hg2]
  have hp := lateChain_preserve s3 w h
  have hg3 :
      ¬(¬(ensureBindGroup (updateUniformsM (refreshUniformInput s3 w h))).pipeline = true ∨
        (ensureBindGroup (updateUniformsM (refreshUniformInput s3 w h))).outputTexture =
          none) := by
    rw [not_or, hp.2.2.2, hp.1, h3.1, h3.2.2.2.2]
    simp
  rw [if_neg hg3]
  have hrb : (ensureBindGroup (updateUniformsM (refreshUniformInput s3 w h))).readbackBuffers =
      some (s2.fresh + 2, s2.fresh + 3) := by
    rw [hp.2.1, h3.2.1]
  rw [hrb]
  refine ⟨_, rfl, ?_⟩
  show (ensureBindGroup (updateUniformsM (refreshUniformInput s3 w h))).root = true
  rw [hp.2.2.1, h3.2.2.2.1]

/-- **C7.** `updateConfig` with output dimensions equal to the currently
configured ones leaves the output texture, the readback buffer pair and
the pixel-staging buffer untouched (nothing destroyed, nothing nulled);
with a changed width or height it destroys them and nulls the fields, and
the next successful `undistort` call holds a (re)allocated output
texture. -/
theorem C7_resize_idempotence (s : OrchState) (u : ConfigUpdate) :
    ((updateConfigNormalized s.config u).size = s.config.size →
      (updateConfigM s u).outputTexture = s.outputTexture ∧
      (updateConfigM s u).readbackBuffers = s.readbackBuffers ∧
      (updateConfigM s u).pixelBuffer = s.pixelBuffer ∧
      (updateConfigM s u).destroyed = s.destroyed) ∧
    ((updateConfigNormalized s.config u).size ≠ s.config.size →
      (updateConfigM s u).outputTexture = none ∧
      (updateConfigM s u).readbackBuffers = none ∧
      (updateConfigM s u).pixelBuffer = none ∧
      (∀ t, s.outputTexture = some t → t ∈ (updateConfigM s u).destroyed) ∧
      (∀ a b, s.readbackBuffers = some (a, b) →
        a ∈ (updateConfigM s u).destroyed ∧ b ∈ (updateConfigM s u).destroyed)) ∧
    (∀ (w h : ℚ) (tag : ℕ) (s' : OrchState),
      undistortM (updateConfigM s u) w h tag = Except.ok s' →
      s'.outputTexture.isSome) := by
  refine ⟨?_, ?_, ?_⟩
  · intro hsz
    have hw : (updateConfigNormalized s.config u).size.width = s.config.size.width := by
      rw [hsz]
    have hh : (updateConfigNormalized s.config u).size.height = s.config.size.height := by
      rw [hsz]
    simp only [updateConfigM, updateUniformsM]
    split_ifs <;> simp_all
  · intro hsz
    have hne : (updateConfigNormalized s.config u).size.width ≠ s.config.size.width ∨
        (updateConfigNormalized s.config u).size.height ≠ s.config.size.height := by
      by_contra hcon
      push_neg at hcon
      refine hsz ?_
      have e1 : (updateConfigNormalized s.config u).size =
          (⟨(updateConfigNormalized s.config u).size.width,
            (updateConfigNormalized s.config u).size.height⟩ : ImageSize) := rfl
      rw [e1, hcon.1, hcon.2]
    simp only [updateConfigM, updateUniformsM]
    split_ifs <;> simp_all [pairHandles]
  · intro w h tag s' hok
    exact undistortM_ok_outputTexture _ w h tag s' hok

/-- Witness for C7 at concrete inputs: an empty update keeps the
resources of a state holding handles, and a width-changing update nulls
them and records the destroyed handles. -/
theorem C7_resize_idempotence_witness :
    ((updateConfigNormalized Fisheye.sampleAllocatedState.config emptyUpdate).size =
        Fisheye.sampleAllocatedState.config.size ∧
      (updateConfigM Fisheye.sampleAllocatedState emptyUpdate).outputTexture =
        Fisheye.sampleAllocatedState.outputTexture) ∧
    ((updateConfigNormalized Fisheye.sampleAllocatedState.config
          Fisheye.widthChangeUpdate).size ≠ Fisheye.sampleAllocatedState.config.size ∧
      (updateConfigM Fisheye.sampleAllocatedState Fisheye.widthChangeUpdate).outputTexture =
        none ∧
      (10 : ℕ) ∈ (updateConfigM Fisheye.sampleAllocatedState
        Fisheye.widthChangeUpdate).destroyed) := by
  have h1 := C7_resize_idempotence Fisheye.sampleAllocatedState emptyUpdate
  have h2 := C7_resize_idempotence Fisheye.sampleAllocatedState Fisheye.widthChangeUpdate
  refine ⟨⟨by decide, (h1.1 (by decide)).1⟩, ⟨by decide, (h2.2.1 (by decide)).1, ?_⟩⟩
  exact (h2.2.1 (by decide)).2.2.2.1 10 (by decide)

/-- **C8 counterexample.** The claim states that after `destroy()` every
subsequent public method call raises an error.  At a concrete instance
(default options, destroyed immediately), a subsequent `undistort` call
does not raise — it silently re-initializes (the lazy `initialize()` sees
`root == null` and re-acquires the device) — and a second `destroy()` is
a silent no-op. -/
theorem C8_counterexample_post_destroy_not_failure :
    exceptIsOk (undistortM (destroyM (mkFisheye
      (FisheyeOptions.flat defaultFlatOptions))) 16 16 1) = true ∧
    rootAfter (undistortM (destroyM (mkFisheye
      (FisheyeOptions.flat defaultFlatOptions))) 16 16 1) = true ∧
    destroyM (destroyM (mkFisheye (FisheyeOptions.flat defaultFlatOptions))) =
      destroyM (mkFisheye (FisheyeOptions.flat defaultFlatOptions)) := by
  refine ⟨?_, ?_, by decide⟩ <;>
    · obtain ⟨s', hok, hroot⟩ := undistortM_after_destroy_ok
        (mkFisheye (FisheyeOptions.flat defaultFlatOptions)) 16 16 1
      simp [hok, exceptIsOk, rootAfter, hroot]

/-- **C8 amended.** After `destroy()` no public method raises: `undistort`
succeeds by silently re-initializing (the re-created root witnesses the
re-initialization), `updateConfig` merges the configuration but leaves the
output-side resources null, and `destroy` is idempotent. -/
theorem C8_amended_post_destroy_behavior (s : OrchState) (w h : ℚ) (tag : ℕ)
    (u : ConfigUpdate) :
    exceptIsOk (undistortM (destroyM s) w h tag) = true ∧
    rootAfter (undistortM (destroyM s) w h tag) = true ∧
    (updateConfigM (destroyM s) u).outputTexture = none ∧
    (updateConfigM (destroyM s) u).readbackBuffers = none ∧
    (updateConfigM (destroyM s) u).pixelBuffer = none ∧
    destroyM (destroyM s) = destroyM s := by
  obtain ⟨s', hok, hroot⟩ := undistortM_after_destroy_ok s w h tag
  refine ⟨by simp [hok, exceptIsOk], by simp [hok, rootAfter, hroot], ?_, ?_, ?_, ?_⟩
  · simp only [updateConfigM, updateUniformsM, destroyM]
    split_ifs <;> simp_all
  · simp only [updateConfigM, updateUniformsM, destroyM]
    split_ifs <;> simp_all
  · simp only [updateConfigM, updateUniformsM, destroyM]
    split_ifs <;> simp_all
  · simp [destroyM, pairHandles]

/-! ## Theorems for claim C2 (forward distorted-radius convention) -/

open Real in
/-- The magnitude of the kernel's forward-mapped point is `|θ_d|`
whenever `r ≥ 1e-8` (so that `max(r, 1e-8) = r`). -/
lemma kernelForwardDistort_magnitude (k1 k2 k3 k4 a b : ℝ)
    (hr : (1e-8 : ℝ) ≤ Real.sqrt (a * a + b * b)) :
    Real.sqrt ((kernelForwardDistort k1 k2 k3 k4 a b).1 *
        (kernelForwardDistort k1 k2 k3 k4 a b).1 +
      (kernelForwardDistort k1 k2 k3 k4 a b).2 *
        (kernelForwardDistort k1 k2 k3 k4 a b).2) =
    |thetaPoly k1 k2 k3 k4 (Real.arctan (Real.sqrt (a * a + b * b)))| := by
  set r := Real.sqrt (a * a + b * b) with hrdef
  have hr0 : (0 : ℝ) < r := lt_of_lt_of_le (by norm_num) hr
  have hmax : max r (1e-8 : ℝ) = r := max_eq_left hr
  have hab : r * r = a * a + b * b :=
    Real.mul_self_sqrt (add_nonneg (mul_self_nonneg a) (mul_self_nonneg b))
  set θd := thetaPoly k1 k2 k3 k4 (Real.arctan r) with hθd
  have h1 : (kernelForwardDistort k1 k2 k3 k4 a b).1 = a * (θd / r) := by
    simp only [kernelForwardDistort, ← hrdef, hmax, hθd, thetaPoly]
    ring
  have h2 : (kernelForwardDistort k1 k2 k3 k4 a b).2 = b * (θd / r) := by
    simp only [kernelForwardDistort, ← hrdef, hmax, hθd, thetaPoly]
    ring
  rw [h1, h2]
  have hsum : a * (θd / r) * (a * (θd / r)) + b * (θd / r) * (b * (θd / r)) =
      θd ^ 2 := by
    have hrne : r ≠ 0 := ne_of_gt hr0
    have expand : a * (θd / r) * (a * (θd / r)) + b * (θd / r) * (b * (θd / r)) =
        (a * a + b * b) * θd ^ 2 / (r * r) := by
      field_simp
      ring
    rw [expand, ← hab]
    field_simp
  rw [hsum, Real.sqrt_sq_eq_abs]

/-- **C2 counterexample.** The claim asserts the forward-mapped
magnitude equals `θ_d` for every normalized point with `r ≥ 1e-8` and
every coefficient set.  At `(a,b) = (1,0)` with `k1 = −2` the distorted
radius `θ_d = (π/4)(1 − π²/8)` is negative, and the magnitude — a square
root — equals `−θ_d ≠ θ_d`. -/
theorem C2_counterexample_magnitude_not_thetaD :
    Real.sqrt ((kernelForwardDistort (-2) 0 0 0 1 0).1 *
        (kernelForwardDistort (-2) 0 0 0 1 0).1 +
      (kernelForwardDistort (-2) 0 0 0 1 0).2 *
        (kernelForwardDistort (-2) 0 0 0 1 0).2) ≠
    thetaPoly (-2) 0 0 0 (Real.arctan (Real.sqrt (1 * 1 + 0 * 0))) := by
  have h1 : (1 * 1 + 0 * 0 : ℝ) = 1 := by norm_num
  have hr : (1e-8 : ℝ) ≤ Real.sqrt (1 * 1 + 0 * 0) := by
    rw [h1, Real.sqrt_one]
    norm_num
  have hmag := kernelForwardDistort_magnitude (-2) 0 0 0 1 0 hr
  rw [hmag]
  have hθd : thetaPoly (-2) 0 0 0 (Real.arctan (Real.sqrt (1 * 1 + 0 * 0))) < 0 := by
    rw [h1, Real.sqrt_one, Real.arctan_one]
    have hπ : (3 : ℝ) < Real.pi := Real.pi_gt_three
    have hπ0 : (0 : ℝ) < Real.pi := Real.pi_pos
    have h9 : (9 : ℝ) < Real.pi ^ 2 := by nlinarith [hπ]
    have h27 : 9 * Real.pi < Real.pi ^ 3 := by nlinarith [h9, hπ0]
    unfold thetaPoly
    nlinarith [h27, hπ0]
  intro heq
  rw [abs_of_neg hθd] at heq
  linarith

/-- **C2 amended.** For every normalized point with `r ≥ 1e-8` the
forward-mapped point's magnitude equals `|θ_d|` (and equals `θ_d` itself
exactly when `θ_d ≥ 0`); it is never a `tan`-based radius. -/
theorem C2_amended_forward_magnitude (k1 k2 k3 k4 a b : ℝ)
    (hr : (1e-8 : ℝ) ≤ Real.sqrt (a * a + b * b)) :
    Real.sqrt ((kernelForwardDistort k1 k2 k3 k4 a b).1 *
        (kernelForwardDistort k1 k2 k3 k4 a b).1 +
      (kernelForwardDistort k1 k2 k3 k4 a b).2 *
        (kernelForwardDistort k1 k2 k3 k4 a b).2) =
      |thetaPoly k1 k2 k3 k4 (Real.arctan (Real.sqrt (a * a + b * b)))| ∧
    (0 ≤ thetaPoly k1 k2 k3 k4 (Real.arctan (Real.sqrt (a * a + b * b))) →
      Real.sqrt ((kernelForwardDistort k1 k2 k3 k4 a b).1 *
          (kernelForwardDistort k1 k2 k3 k4 a b).1 +
        (kernelForwardDistort k1 k2 k3 k4 a b).2 *
          (kernelForwardDistort k1 k2 k3 k4 a b).2) =
        thetaPoly k1 k2 k3 k4 (Real.arctan (Real.sqrt (a * a + b * b)))) := by
  refine ⟨kernelForwardDistort_magnitude k1 k2 k3 k4 a b hr, fun h0 => ?_⟩
  rw [kernelForwardDistort_magnitude k1 k2 k3 k4 a b hr, abs_of_nonneg h0]

/-- Witness for C2 at `(a,b) = (1,0)`, zero distortion: the hypotheses
hold (`r = 1 ≥ 1e-8`, `θ_d = π/4 ≥ 0`) and the magnitude equals `θ_d`. -/
theorem C2_amended_forward_magnitude_witness :
    (1e-8 : ℝ) ≤ Real.sqrt (1 * 1 + 0 * 0) ∧
    (0 ≤ thetaPoly 0 0 0 0 (Real.arctan (Real.sqrt (1 * 1 + 0 * 0)))) ∧
    Real.sqrt ((kernelForwardDistort 0 0 0 0 1 0).1 *
        (kernelForwardDistort 0 0 0 0 1 0).1 +
      (kernelForwardDistort 0 0 0 0 1 0).2 *
        (kernelForwardDistort 0 0 0 0 1 0).2) =
      thetaPoly 0 0 0 0 (Real.arctan (Real.sqrt (1 * 1 + 0 * 0))) := by
  have h1 : (1 * 1 + 0 * 0 : ℝ) = 1 := by norm_num
  have hr : (1e-8 : ℝ) ≤ Real.sqrt (1 * 1 + 0 * 0) := by
    rw [h1, Real.sqrt_one]
    norm_num
  have h0 : 0 ≤ thetaPoly 0 0 0 0 (Real.arctan (Real.sqrt (1 * 1 + 0 * 0))) := by
    rw [h1, Real.sqrt_one, Real.arctan_one]
    unfold thetaPoly
    positivity
  exact ⟨hr, h0, (C2_amended_forward_magnitude 0 0 0 0 1 0 hr).2 h0⟩

/-! ## Theorems for claims C4 and C5 (new-camera-matrix focal policy) -/

/-- The monolithic `computeNewCameraMatrix` decomposes over the named
edge-candidate quantities: its focal is
`balance·fMin + (1−balance)·fMax`, multiplied by `1/fovScale` exactly
when `fovScale > 0`, and the output entries scale it by the
output/input size ratio. -/
lemma computeNewCameraMatrix_newFx_eq (cfg : CameraConfigR) (w h : ℝ) :
    (computeNewCameraMatrix cfg w h).newFx =
      (if 0 < cfg.fovScale then
        (cfg.balance * ncmFMin cfg w h + (1 - cfg.balance) * ncmFMax cfg w h) *
          (1 / cfg.fovScale)
      else
        cfg.balance * ncmFMin cfg w h + (1 - cfg.balance) * ncmFMax cfg w h) *
      (cfg.sizeWidth / w) := rfl

/-- Same decomposition for `newFy` (the focal divided by the aspect
ratio, scaled by the height ratio). -/
lemma computeNewCameraMatrix_newFy_eq (cfg : CameraConfigR) (w h : ℝ) :
    (computeNewCameraMatrix cfg w h).newFy =
      ((if 0 < cfg.fovScale then
        (cfg.balance * ncmFMin cfg w h + (1 - cfg.balance) * ncmFMax cfg w h) *
          (1 / cfg.fovScale)
      else
        cfg.balance * ncmFMin cfg w h + (1 - cfg.balance) * ncmFMax cfg w h) /
        ncmAspect cfg w) *
      (cfg.sizeHeight / h) := rfl

/-- **C4.** The final focal of `computeNewCameraMatrix` before
principal-point derivation and output scaling is
`f = balance·fMin + (1−balance)·fMax` with `fMin`/`fMax` the min/max of
the four edge-derived candidates `f1..f4`; `f` is multiplied by
`1/fovScale` exactly when `fovScale > 0` and left undivided otherwise;
the output `newFx`/`newFy` entries are that focal scaled by the
output/input ratios. -/
theorem C4_focal_formula (cfg : CameraConfigR) (w h : ℝ) :
    ncmFMin cfg w h =
      min (min (min (ncmF1 cfg w h) (ncmF2 cfg w h)) (ncmF3 cfg w h)) (ncmF4 cfg w h) ∧
    ncmFMax cfg w h =
      max (max (max (ncmF1 cfg w h) (ncmF2 cfg w h)) (ncmF3 cfg w h)) (ncmF4 cfg w h) ∧
    (computeNewCameraMatrix cfg w h).newFx =
      (if 0 < cfg.fovScale then
        (cfg.balance * ncmFMin cfg w h + (1 - cfg.balance) * ncmFMax cfg w h) *
          (1 / cfg.fovScale)
      else
        cfg.balance * ncmFMin cfg w h + (1 - cfg.balance) * ncmFMax cfg w h) *
      (cfg.sizeWidth / w) ∧
    (computeNewCameraMatrix cfg w h).newFy =
      ((if 0 < cfg.fovScale then
        (cfg.balance * ncmFMin cfg w h + (1 - cfg.balance) * ncmFMax cfg w h) *
          (1 / cfg.fovScale)
      else
        cfg.balance * ncmFMin cfg w h + (1 - cfg.balance) * ncmFMax cfg w h) /
        ncmAspect cfg w) *
      (cfg.sizeHeight / h) :=
  ⟨rfl, rfl, computeNewCameraMatrix_newFx_eq cfg w h,
    computeNewCameraMatrix_newFy_eq cfg w h⟩

/-- The focal candidates ignore `balance` and `fovScale` (those enter
only after the bounding-box step). -/
lemma ncmFMinMax_balance_agnostic (cfg : CameraConfigR) (b s w h : ℝ) :
    ncmFMin { cfg with balance := b, fovScale := s } w h = ncmFMin cfg w h ∧
    ncmFMax { cfg with balance := b, fovScale := s } w h = ncmFMax cfg w h :=
  ⟨rfl, rfl⟩

/-- **C5 amended.** With `fovScale = 1`: `balance = 0` yields the
`fMax`-derived focal (the maximally zoomed-in view), `balance = 1` the
`fMin`-derived one, and an arbitrary balance the linear interpolation
`b·fMin + (1−b)·fMax` (scaled by the output/input width ratio in
`newFx`). -/
theorem C5_amended_balance_interpolation (cfg : CameraConfigR) (w h : ℝ) :
    (computeNewCameraMatrix { cfg with balance := 0, fovScale := 1 } w h).newFx =
      ncmFMax cfg w h * (cfg.sizeWidth / w) ∧
    (computeNewCameraMatrix { cfg with balance := 1, fovScale := 1 } w h).newFx =
      ncmFMin cfg w h * (cfg.sizeWidth / w) ∧
    (computeNewCameraMatrix { cfg with fovScale := 1 } w h).newFx =
      (cfg.balance * ncmFMin cfg w h + (1 - cfg.balance) * ncmFMax cfg w h) *
        (cfg.sizeWidth / w) := by
  have h0 := computeNewCameraMatrix_newFx_eq { cfg with balance := 0, fovScale := 1 } w h
  have h1 := computeNewCameraMatrix_newFx_eq { cfg with balance := 1, fovScale := 1 } w h
  have hb := computeNewCameraMatrix_newFx_eq { cfg with fovScale := 1 } w h
  have e0min : ncmFMin { cfg with balance := 0, fovScale := 1 } w h = ncmFMin cfg w h := rfl
  have e0max : ncmFMax { cfg with balance := 0, fovScale := 1 } w h = ncmFMax cfg w h := rfl
  have e1min : ncmFMin { cfg with balance := 1, fovScale := 1 } w h = ncmFMin cfg w h := rfl
  have e1max : ncmFMax { cfg with balance := 1, fovScale := 1 } w h = ncmFMax cfg w h := rfl
  have ebmin : ncmFMin { cfg with fovScale := 1 } w h = ncmFMin cfg w h := rfl
  have ebmax : ncmFMax { cfg with fovScale := 1 } w h = ncmFMax cfg w h := rfl
  rw [e0min, e0max] at h0
  rw [e1min, e1max] at h1
  rw [ebmin, ebmax] at hb
  norm_num at h0 h1 hb
  exact ⟨h0, h1, hb⟩

/-! ### Evaluation of the concrete calibration (zero distortion) -/

/-- With zero coefficients the Newton residual vanishes at the starting
point, so the loop stops after one step and returns the clipped radius. -/
lemma newtonIter_zero_coeffs (c : ℝ) (n : ℕ) :
    newtonIter 0 0 0 0 c (n + 1) c = c := by
  simp only [newtonIter]
  norm_num

/-- `undistortPointNormalized` with zero coefficients on a radius in
`[1e-8, π/2]` rescales the input by `tan(r)/r`. -/
lemma undistortPointNormalized_zeroD (x y : ℝ)
    (h1 : (1e-8 : ℝ) ≤ Real.sqrt (x * x + y * y))
    (h2 : Real.sqrt (x * x + y * y) ≤ Real.pi / 2) :
    undistortPointNormalized x y 0 0 0 0 =
      (x * (Real.tan (Real.sqrt (x * x + y * y)) / Real.sqrt (x * x + y * y)),
       y * (Real.tan (Real.sqrt (x * x + y * y)) / Real.sqrt (x * x + y * y))) := by
  set r := Real.sqrt (x * x + y * y) with hrdef
  have hr0 : (0 : ℝ) < r := lt_of_lt_of_le (by norm_num) h1
  have hneg : -(Real.pi / 2) ≤ r :=
    le_trans (neg_nonpos.mpr (by positivity)) hr0.le
  have hclip : min (max (-(Real.pi / 2)) r) (Real.pi / 2) = r := by
    rw [max_eq_right hneg, min_eq_left h2]
  have hguard : ¬(|r| < 1e-8) := by
    rw [abs_of_pos hr0]
    exact not_lt.mpr h1
  have h20 : newtonIter 0 0 0 0 r 20 r = r := newtonIter_zero_coeffs r 19
  simp only [undistortPointNormalized, ← hrdef, hclip]
  rw [if_neg hguard, h20]

/-- `tan(1/2) > 0`. -/
lemma tanHalfPos : (0 : ℝ) < Real.tan (1 / 2) :=
  Real.tan_pos_of_pos_of_lt_pi_div_two (by norm_num)
    (by have := Real.pi_gt_three; linarith)

/-- `tan 1 > 0`. -/
lemma tanOnePos : (0 : ℝ) < Real.tan 1 :=
  Real.tan_pos_of_pos_of_lt_pi_div_two (by norm_num)
    (by have := Real.pi_gt_three; linarith)

/-- `tan(1/2) < 1` (as `1/2 < π/4`). -/
lemma tanHalfLtOne : Real.tan (1 / 2) < 1 := by
  have h := Real.tan_lt_tan_of_nonneg_of_lt_pi_div_two
    (x := (1 / 2 : ℝ)) (y := Real.pi / 4)
    (by norm_num)
    (by have := Real.pi_pos; linarith)
    (by have := Real.pi_gt_three; linarith)
  rwa [Real.tan_pi_div_four] at h

/-- Double-angle: `tan 1 = 2·tan(1/2)/(1 − tan²(1/2))`. -/
lemma tanOne_eq : Real.tan 1 = 2 * Real.tan (1 / 2) / (1 - Real.tan (1 / 2) ^ 2) := by
  have h := Real.tan_two_mul (x := (1 / 2 : ℝ))
  norm_num at h
  exact h

/-- `2·tan(1/2) < tan 1`. -/
lemma twoTanHalf_lt_tanOne : 2 * Real.tan (1 / 2) < Real.tan 1 := by
  have h1 := tanHalfPos
  have h2 := tanHalfLtOne
  have hd : (0 : ℝ) < 1 - Real.tan (1 / 2) ^ 2 := by nlinarith
  rw [tanOne_eq, lt_div_iff hd]
  nlinarith [mul_pos h1 (mul_pos h1 h1)]

/-- The x-derived focal candidate is strictly below the y-derived one. -/
lemma cexF_lt : 100 / Real.tan 1 < 50 / Real.tan (1 / 2) := by
  have h1 := tanOnePos
  have h2 := tanHalfPos
  have h3 := twoTanHalf_lt_tanOne
  rw [div_lt_div_iff h1 h2]
  nlinarith

/-- Top edge midpoint undistorts to `(0, −tan(1/2))`. -/
lemma cexU1 : ncmU1 cexNCMConfig 200 100 = (0, -Real.tan (1 / 2)) := by
  have harg : ncmU1 cexNCMConfig 200 100 =
      undistortPointNormalized 0 (-(1 / 2)) 0 0 0 0 := by
    simp only [ncmU1, undistortPixelToNormalized]
    norm_num [ncmFx, ncmFy, ncmCx, ncmCy, cexNCMConfig]
  have hs : Real.sqrt ((0 : ℝ) * 0 + -(1 / 2) * -(1 / 2)) = 1 / 2 := by
    rw [show ((0 : ℝ) * 0 + -(1 / 2) * -(1 / 2)) = (1 / 2) ^ 2 by norm_num,
      Real.sqrt_sq (by norm_num)]
  have hh1 : (1e-8 : ℝ) ≤ Real.sqrt ((0 : ℝ) * 0 + -(1 / 2) * -(1 / 2)) := by
    rw [hs]; norm_num
  have hh2 : Real.sqrt ((0 : ℝ) * 0 + -(1 / 2) * -(1 / 2)) ≤ Real.pi / 2 := by
    rw [hs]; have := Real.pi_gt_three; linarith
  rw [harg, undistortPointNormalized_zeroD 0 (-(1 / 2)) hh1 hh2, hs]
  rw [Prod.ext_iff]
  constructor
  · norm_num
  · show -(1 / 2) * (Real.tan (1 / 2) / (1 / 2)) = -Real.tan (1 / 2)
    field_simp

/-- Right edge midpoint undistorts to `(tan 1, 0)`. -/
lemma cexU2 : ncmU2 cexNCMConfig 200 100 = (Real.tan 1, 0) := by
  have harg : ncmU2 cexNCMConfig 200 100 =
      undistortPointNormalized 1 0 0 0 0 0 := by
    simp only [ncmU2, undistortPixelToNormalized]
    norm_num [ncmFx, ncmFy, ncmCx, ncmCy, cexNCMConfig]
  have hs : Real.sqrt ((1 : ℝ) * 1 + 0 * 0) = 1 := by
    rw [show ((1 : ℝ) * 1 + 0 * 0) = 1 by norm_num, Real.sqrt_one]
  have hh1 : (1e-8 : ℝ) ≤ Real.sqrt ((1 : ℝ) * 1 + 0 * 0) := by
    rw [hs]; norm_num
  have hh2 : Real.sqrt ((1 : ℝ) * 1 + 0 * 0) ≤ Real.pi / 2 := by
    rw [hs]; have := Real.pi_gt_three; linarith
  rw [harg, undistortPointNormalized_zeroD 1 0 hh1 hh2, hs]
  norm_num

/-- Bottom edge midpoint undistorts to `(0, tan(1/2))`. -/
lemma cexU3 : ncmU3 cexNCMConfig 200 100 = (0, Real.tan (1 / 2)) := by
  have harg : ncmU3 cexNCMConfig 200 100 =
      undistortPointNormalized 0 (1 / 2) 0 0 0 0 := by
    simp only [ncmU3, undistortPixelToNormalized]
    norm_num [ncmFx, ncmFy, ncmCx, ncmCy, cexNCMConfig]
  have hs : Real.sqrt ((0 : ℝ) * 0 + 1 / 2 * (1 / 2)) = 1 / 2 := by
    rw [show ((0 : ℝ) * 0 + 1 / 2 * (1 / 2)) = (1 / 2) ^ 2 by norm_num,
      Real.sqrt_sq (by norm_num)]
  have hh1 : (1e-8 : ℝ) ≤ Real.sqrt ((0 : ℝ) * 0 + 1 / 2 * (1 / 2)) := by
    rw [hs]; norm_num
  have hh2 : Real.sqrt ((0 : ℝ) * 0 + 1 / 2 * (1 / 2)) ≤ Real.pi / 2 := by
    rw [hs]; have := Real.pi_gt_three; linarith
  rw [harg, undistortPointNormalized_zeroD 0 (1 / 2) hh1 hh2, hs]
  rw [Prod.ext_iff]
  constructor
  · norm_num
  · show (1 / 2) * (Real.tan (1 / 2) / (1 / 2)) = Real.tan (1 / 2)
    field_simp

/-- Left edge midpoint undistorts to `(−tan 1, 0)`. -/
lemma cexU4 : ncmU4 cexNCMConfig 200 100 = (-Real.tan 1, 0) := by
  have harg : ncmU4 cexNCMConfig 200 100 =
      undistortPointNormalized (-1) 0 0 0 0 0 := by
    simp only [ncmU4, undistortPixelToNormalized]
    norm_num [ncmFx, ncmFy, ncmCx, ncmCy, cexNCMConfig]
  have hs : Real.sqrt ((-1 : ℝ) * -1 + 0 * 0) = 1 := by
    rw [show ((-1 : ℝ) * -1 + 0 * 0) = 1 by norm_num, Real.sqrt_one]
  have hh1 : (1e-8 : ℝ) ≤ Real.sqrt ((-1 : ℝ) * -1 + 0 * 0) := by
    rw [hs]; norm_num
  have hh2 : Real.sqrt ((-1 : ℝ) * -1 + 0 * 0) ≤ Real.pi / 2 := by
    rw [hs]; have := Real.pi_gt_three; linarith
  rw [harg, undistortPointNormalized_zeroD (-1) 0 hh1 hh2, hs]
  norm_num

/-- The aspect ratio of the concrete calibration is 1. -/
lemma cexAspect : ncmAspect cexNCMConfig 200 = 1 := by
  norm_num [ncmAspect, ncmFx, ncmFy, cexNCMConfig]

/-- The rescaled centroid of the concrete calibration is the origin
(the four undistorted midpoints are symmetric). -/
lemma cexCn : ncmCn cexNCMConfig 200 100 = (0, 0) := by
  simp only [ncmCn, ncmCenter, cexU1, cexU2, cexU3, cexU4, cexAspect]
  rw [Prod.ext_iff]
  constructor
  · show (0 + Real.tan 1 + 0 + -Real.tan 1) / 4 = 0
    ring
  · show (-Real.tan (1 / 2) + 0 + Real.tan (1 / 2) + 0) / 4 * 1 = 0
    ring

/-- Rescaled edge points of the concrete calibration. -/
lemma cexV : ncmV1 cexNCMConfig 200 100 = (0, -Real.tan (1 / 2)) ∧
    ncmV2 cexNCMConfig 200 100 = (Real.tan 1, 0) ∧
    ncmV3 cexNCMConfig 200 100 = (0, Real.tan (1 / 2)) ∧
    ncmV4 cexNCMConfig 200 100 = (-Real.tan 1, 0) := by
  refine ⟨?_, ?_, ?_, ?_⟩ <;>
    simp [ncmV1, ncmV2, ncmV3, ncmV4, cexU1, cexU2, cexU3, cexU4, cexAspect]

/-- Bounding box of the rescaled points: `[−tan 1, tan 1] × [−tan(1/2),
tan(1/2)]`. -/
lemma cexBox : ncmMinX cexNCMConfig 200 100 = -Real.tan 1 ∧
    ncmMaxX cexNCMConfig 200 100 = Real.tan 1 ∧
    ncmMinY cexNCMConfig 200 100 = -Real.tan (1 / 2) ∧
    ncmMaxY cexNCMConfig 200 100 = Real.tan (1 / 2) := by
  obtain ⟨hv1, hv2, hv3, hv4⟩ := cexV
  have h1 := tanOnePos
  have hh := tanHalfPos
  have hhlt := tanHalfLtOne
  have hM : (1 : ℝ) ≤ NUMBER_MAX_VALUE := by norm_num [NUMBER_MAX_VALUE]
  refine ⟨?_, ?_, ?_, ?_⟩
  · rw [ncmMinX, hv1, hv2, hv3, hv4]
    show min (min (min (min NUMBER_MAX_VALUE 0) (Real.tan 1)) 0) (-Real.tan 1) = _
    have a1 : min NUMBER_MAX_VALUE (0 : ℝ) = 0 := min_eq_right (by linarith)
    have a2 : min (0 : ℝ) (Real.tan 1) = 0 := min_eq_left h1.le
    have a3 : min (0 : ℝ) (0 : ℝ) = 0 := min_self 0
    have a4 : min (0 : ℝ) (-Real.tan 1) = -Real.tan 1 := min_eq_right (by linarith)
    rw [a1, a2, a3, a4]
  · rw [ncmMaxX, hv1, hv2, hv3, hv4]
    show max (max (max (max (-NUMBER_MAX_VALUE) 0) (Real.tan 1)) 0) (-Real.tan 1) = _
    have a1 : max (-NUMBER_MAX_VALUE) (0 : ℝ) = 0 := max_eq_right (by linarith)
    have a2 : max (0 : ℝ) (Real.tan 1) = Real.tan 1 := max_eq_right h1.le
    have a3 : max (Real.tan 1) (0 : ℝ) = Real.tan 1 := max_eq_left h1.le
    have a4 : max (Real.tan 1) (-Real.tan 1) = Real.tan 1 := max_eq_left (by linarith)
    rw [a1, a2, a3, a4]
  · rw [ncmMinY, hv1, hv2, hv3, hv4]
    show min (min (min (min NUMBER_MAX_VALUE (-Real.tan (1 / 2))) 0) (Real.tan (1 / 2))) 0 = _
    have a1 : min NUMBER_MAX_VALUE (-Real.tan (1 / 2)) = -Real.tan (1 / 2) :=
      min_eq_right (by linarith)
    have a2 : min (-Real.tan (1 / 2)) (0 : ℝ) = -Real.tan (1 / 2) :=
      min_eq_left (by linarith)
    have a3 : min (-Real.tan (1 / 2)) (Real.tan (1 / 2)) = -Real.tan (1 / 2) :=
      min_eq_left (by linarith)
    rw [a1, a2, a3, a2]
  · rw [ncmMaxY, hv1, hv2, hv3, hv4]
    show max (max (max (max (-NUMBER_MAX_VALUE) (-Real.tan (1 / 2))) 0) (Real.tan (1 / 2))) 0 = _
    have a1 : max (-NUMBER_MAX_VALUE) (-Real.tan (1 / 2)) = -Real.tan (1 / 2) :=
      max_eq_right (by linarith)
    have a2 : max (-Real.tan (1 / 2)) (0 : ℝ) = 0 := max_eq_right (by linarith)
    have a3 : max (0 : ℝ) (Real.tan (1 / 2)) = Real.tan (1 / 2) := max_eq_right hh.le
    have a4 : max (Real.tan (1 / 2)) (0 : ℝ) = Real.tan (1 / 2) := max_eq_left hh.le
    rw [a1, a2, a3, a4]

/-- The four focal candidates of the concrete calibration. -/
lemma cexF : ncmF1 cexNCMConfig 200 100 = 100 / Real.tan 1 ∧
    ncmF2 cexNCMConfig 200 100 = 100 / Real.tan 1 ∧
    ncmF3 cexNCMConfig 200 100 = 50 / Real.tan (1 / 2) ∧
    ncmF4 cexNCMConfig 200 100 = 50 / Real.tan (1 / 2) := by
  obtain ⟨hminX, hmaxX, hminY, hmaxY⟩ := cexBox
  refine ⟨?_, ?_, ?_, ?_⟩
  · rw [ncmF1, cexCn, hminX]
    norm_num
  · rw [ncmF2, cexCn, hmaxX]
    norm_num
  · rw [ncmF3, cexCn, hminY, cexAspect]
    norm_num
  · rw [ncmF4, cexCn, hmaxY, cexAspect]
    norm_num

/-- `fMin` and `fMax` of the concrete calibration are distinct:
`fMin = 100/tan 1`, `fMax = 50/tan(1/2)`. -/
lemma cexFMinMax : ncmFMin cexNCMConfig 200 100 = 100 / Real.tan 1 ∧
    ncmFMax cexNCMConfig 200 100 = 50 / Real.tan (1 / 2) := by
  obtain ⟨hf1, hf2, hf3, hf4⟩ := cexF
  have hlt := cexF_lt
  constructor
  · rw [ncmFMin, hf1, hf2, hf3, hf4, min_self, min_eq_left hlt.le, min_eq_left hlt.le]
  · rw [ncmFMax, hf1, hf2, hf3, hf4, max_self, max_eq_right hlt.le, max_self]

/-- **C5 counterexample.** The claim says `balance = 0` yields the
`fMin`-derived focal.  At the concrete calibration (where
`fMin = 100/tan 1 ≠ 50/tan(1/2) = fMax`) the `balance = 0` focal is the
`fMax`-derived value, not the `fMin`-derived one. -/
theorem C5_counterexample_balance_zero_yields_fMax :
    (computeNewCameraMatrix cexNCMConfig 200 100).newFx =
      ncmFMax cexNCMConfig 200 100 * (cexNCMConfig.sizeWidth / 200) ∧
    (computeNewCameraMatrix cexNCMConfig 200 100).newFx ≠
      ncmFMin cexNCMConfig 200 100 * (cexNCMConfig.sizeWidth / 200) := by
  have hfx := computeNewCameraMatrix_newFx_eq cexNCMConfig 200 100
  have hbal : cexNCMConfig.balance = 0 := rfl
  have hfov : cexNCMConfig.fovScale = 1 := rfl
  rw [hbal, hfov] at hfx
  norm_num at hfx
  refine ⟨hfx, ?_⟩
  rw [hfx, cexFMinMax.1, cexFMinMax.2]
  have hsw : cexNCMConfig.sizeWidth = 200 := rfl
  rw [hsw]
  have hne : 50 / Real.tan (1 / 2) ≠ 100 / Real.tan 1 := ne_of_gt cexF_lt
  intro heq
  apply hne
  have h200 : (200 : ℝ) / 200 = 1 := by norm_num
  rw [h200, mul_one, mul_one] at heq
  exact heq

/-! ## Theorems for claim C3 (structure of `undistortPointNormalized`) -/

/-- The piecewise clipping of the claim agrees with the source's
`min(max(-π/2, θ_d), π/2)`. -/
lemma specClip_eq_clip (thetaD : ℝ) :
    specClip thetaD = min (max (-(Real.pi / 2)) thetaD) (Real.pi / 2) := by
  have hπ : (0 : ℝ) < Real.pi := Real.pi_pos
  unfold specClip
  rcases lt_or_le thetaD (-(Real.pi / 2)) with h1 | h1
  · rw [if_pos h1, max_eq_left h1.le, min_eq_left (by linarith)]
  · rw [if_neg (not_lt.2 h1)]
    rcases lt_or_le (Real.pi / 2) thetaD with h2 | h2
    · rw [if_pos h2, max_eq_right h1, min_eq_right h2.le]
    · rw [if_neg (not_lt.2 h2), max_eq_right h1, min_eq_left h2]

/-- Unfolding of the source Newton loop at positive fuel, phrased with
the named polynomial and derivative. -/
lemma newtonIter_succ (k1 k2 k3 k4 c : ℝ) (n : ℕ) (θ : ℝ) :
    newtonIter k1 k2 k3 k4 c (n + 1) θ =
      if |(thetaPoly k1 k2 k3 k4 θ - c) / thetaPolyDeriv k1 k2 k3 k4 θ| < 1e-10
      then θ - (thetaPoly k1 k2 k3 k4 θ - c) / thetaPolyDeriv k1 k2 k3 k4 θ
      else newtonIter k1 k2 k3 k4 c n
        (θ - (thetaPoly k1 k2 k3 k4 θ - c) / thetaPolyDeriv k1 k2 k3 k4 θ) := by
  have hnum : θ * (1 + k1 * (θ * θ) + k2 * ((θ * θ) * (θ * θ)) +
      k3 * (((θ * θ) * (θ * θ)) * (θ * θ)) +
      k4 * (((θ * θ) * (θ * θ)) * ((θ * θ) * (θ * θ)))) - c =
      thetaPoly k1 k2 k3 k4 θ - c := by
    unfold thetaPoly
    ring
  have hden : 1 + 3 * k1 * (θ * θ) + 5 * k2 * ((θ * θ) * (θ * θ)) +
      7 * k3 * (((θ * θ) * (θ * θ)) * (θ * θ)) +
      9 * k4 * (((θ * θ) * (θ * θ)) * ((θ * θ) * (θ * θ))) =
      thetaPolyDeriv k1 k2 k3 k4 θ := by
    unfold thetaPolyDeriv
    ring
  simp only [newtonIter]
  rw [hnum, hden]

/-- The spec step on a non-stopped state, phrased like
`newtonIter_succ`. -/
lemma specNewtonStep_false (k1 k2 k3 k4 c θ : ℝ) :
    specNewtonStep k1 k2 k3 k4 c (θ, false) =
      if |(thetaPoly k1 k2 k3 k4 θ - c) / thetaPolyDeriv k1 k2 k3 k4 θ| < 1e-10
      then (θ - (thetaPoly k1 k2 k3 k4 θ - c) / thetaPolyDeriv k1 k2 k3 k4 θ, true)
      else (θ - (thetaPoly k1 k2 k3 k4 θ - c) / thetaPolyDeriv k1 k2 k3 k4 θ, false) := by
  simp [specNewtonStep]

/-- Once the early-stop flag latches, further spec iterations do
nothing. -/
lemma specNewtonStep_done (k1 k2 k3 k4 c : ℝ) (n : ℕ) (θ : ℝ) :
    (specNewtonStep k1 k2 k3 k4 c)^[n] (θ, true) = (θ, true) := by
  induction n with
  | zero => rfl
  | succ n ih =>
    have hstep : specNewtonStep k1 k2 k3 k4 c (θ, true) = (θ, true) := by
      simp [specNewtonStep]
    rw [Function.iterate_succ_apply, hstep, ih]

/-- The flagged spec iteration computes exactly the source's fueled
Newton loop. -/
lemma specRun_eq_newtonIter (k1 k2 k3 k4 c : ℝ) :
    ∀ (n : ℕ) (θ : ℝ),
      ((specNewtonStep k1 k2 k3 k4 c)^[n] (θ, false)).1 =
        newtonIter k1 k2 k3 k4 c n θ := by
  intro n
  induction n with
  | zero => intro θ; rfl
  | succ n ih =>
    intro θ
    rw [Function.iterate_succ_apply, specNewtonStep_false, newtonIter_succ]
    by_cases hstop :
      |(thetaPoly k1 k2 k3 k4 θ - c) / thetaPolyDeriv k1 k2 k3 k4 θ| < 1e-10
    · rw [if_pos hstop, if_pos hstop, specNewtonStep_done]
    · rw [if_neg hstop, if_neg hstop, ih]

/-- **C3.** `undistortPointNormalized(x, y, k1..k4)` computes
`θ_d = |(x,y)|`, clips it into `[−π/2, π/2]`, returns `(x,y)` unchanged
whenever `|clipped θ_d| < 1e-8`, and otherwise runs at most 20 Newton
iterations `θ ← θ − f(θ)/f'(θ)` on
`f(θ) = θ·(1+k1θ²+k2θ⁴+k3θ⁶+k4θ⁸) − θ_d` with
`f'(θ) = 1+3k1θ²+5k2θ⁴+7k3θ⁶+9k4θ⁸`, stopping early once the step
magnitude drops below `1e-10`, then returns `(x,y)` scaled by
`tan(θ)/θ_d` (with the clipped `θ_d`): the source function coincides with
this specification-side restatement on every input. -/
theorem C3_undistortPointNormalized_matches_spec (x y k1 k2 k3 k4 : ℝ) :
    undistortPointNormalized x y k1 k2 k3 k4 =
      specUndistortPointNormalized x y k1 k2 k3 k4 := by
  simp only [undistortPointNormalized, specUndistortPointNormalized, specNewton]
  rw [specClip_eq_clip,
    specRun_eq_newtonIter k1 k2 k3 k4
      (min (max (-(Real.pi / 2)) (Real.sqrt (x * x + y * y))) (Real.pi / 2)) 20
      (min (max (-(Real.pi / 2)) (Real.sqrt (x * x + y * y))) (Real.pi / 2))]

/-! ## Theorems for claim C1 (forward/inverse round trip)

The counterexample traps the Newton iterates of a non-monotone
calibration inside an interval far from the true angle; the amended
claim proves quadratic convergence for nonnegative coefficients and
`θ ≤ 1/2` (where the starting error is small enough for two Newton steps
to reach `1e-6`). -/

/-- Convexity bounds for the cubic monomial: for `0 ≤ x ≤ y`,
`0 ≤ 3y²(y−x) − (y³−x³) ≤ 3y(y−x)²`. -/
lemma monomial3_bounds (x y : ℝ) (hx : 0 ≤ x) (hxy : x ≤ y) :
    0 ≤ 3 * y ^ 2 * (y - x) - (y ^ 3 - x ^ 3) ∧
    3 * y ^ 2 * (y - x) - (y ^ 3 - x ^ 3) ≤ 3 * y * (y - x) ^ 2 := by
  constructor
  · have hid : 3 * y ^ 2 * (y - x) - (y ^ 3 - x ^ 3) = (y - x) ^ 2 * (2 * y + x) := by
      ring
    rw [hid]
    have := sq_nonneg (y - x)
    nlinarith
  · have hid : 3 * y * (y - x) ^ 2 - (3 * y ^ 2 * (y - x) - (y ^ 3 - x ^ 3)) =
        (y - x) ^ 3 := by ring
    nlinarith [pow_nonneg (sub_nonneg.2 hxy) 3, hid]

/-- Convexity bounds for the quintic monomial: for `0 ≤ x ≤ y`,
`0 ≤ 5y⁴(y−x) − (y⁵−x⁵) ≤ 10y³(y−x)²`. -/
lemma monomial5_bounds (x y : ℝ) (hx : 0 ≤ x) (hxy : x ≤ y) :
    0 ≤ 5 * y ^ 4 * (y - x) - (y ^ 5 - x ^ 5) ∧
    5 * y ^ 4 * (y - x) - (y ^ 5 - x ^ 5) ≤ 10 * y ^ 3 * (y - x) ^ 2 := by
  have hy : 0 ≤ y := le_trans hx hxy
  have he : 0 ≤ y - x := sub_nonneg.2 hxy
  constructor
  · have hid : 5 * y ^ 4 * (y - x) - (y ^ 5 - x ^ 5) =
        (y - x) ^ 2 * (4 * y ^ 3 + 3 * y ^ 2 * x + 2 * y * x ^ 2 + x ^ 3) := by
      ring
    rw [hid]
    have h1 : 0 ≤ 4 * y ^ 3 + 3 * y ^ 2 * x + 2 * y * x ^ 2 + x ^ 3 := by positivity
    exact mul_nonneg (sq_nonneg _) h1
  · have hid : 10 * y ^ 3 * (y - x) ^ 2 - (5 * y ^ 4 * (y - x) - (y ^ 5 - x ^ 5)) =
        (y - x) ^ 3 * ((y - x) - 5 * y / 2) ^ 2 + (15 / 4) * y ^ 2 * (y - x) ^ 3 := by
      ring
    nlinarith [mul_nonneg (pow_nonneg he 3) (sq_nonneg ((y - x) - 5 * y / 2)),
      mul_nonneg (mul_nonneg (by norm_num : (0:ℝ) ≤ 15 / 4) (sq_nonneg y))
        (pow_nonneg he 3), hid]

/-- Convexity bounds for the degree-7 monomial: for `0 ≤ x ≤ y`,
`0 ≤ 7y⁶(y−x) − (y⁷−x⁷) ≤ 21y⁵(y−x)²`. -/
lemma monomial7_bounds (x y : ℝ) (hx : 0 ≤ x) (hxy : x ≤ y) :
    0 ≤ 7 * y ^ 6 * (y - x) - (y ^ 7 - x ^ 7) ∧
    7 * y ^ 6 * (y - x) - (y ^ 7 - x ^ 7) ≤ 21 * y ^ 5 * (y - x) ^ 2 := by
  have hy : 0 ≤ y := le_trans hx hxy
  have he : 0 ≤ y - x := sub_nonneg.2 hxy
  constructor
  · have hid : 7 * y ^ 6 * (y - x) - (y ^ 7 - x ^ 7) =
        (y - x) ^ 2 * (6 * y ^ 5 + 5 * y ^ 4 * x + 4 * y ^ 3 * x ^ 2 +
          3 * y ^ 2 * x ^ 3 + 2 * y * x ^ 4 + x ^ 5) := by
      ring
    rw [hid]
    have h1 : 0 ≤ 6 * y ^ 5 + 5 * y ^ 4 * x + 4 * y ^ 3 * x ^ 2 +
        3 * y ^ 2 * x ^ 3 + 2 * y * x ^ 4 + x ^ 5 := by positivity
    exact mul_nonneg (sq_nonneg _) h1
  · have hid : 21 * y ^ 5 * (y - x) ^ 2 - (7 * y ^ 6 * (y - x) - (y ^ 7 - x ^ 7)) =
        (y - x) ^ 3 * (35 * y ^ 3 * x + 7 * y * (y - x) ^ 2 * (2 * y + x) +
          (y - x) ^ 4) := by
      ring
    have h1 : 0 ≤ 35 * y ^ 3 * x + 7 * y * (y - x) ^ 2 * (2 * y + x) + (y - x) ^ 4 := by
      have a1 : 0 ≤ 35 * y ^ 3 * x := by positivity
      have a2 : 0 ≤ 7 * y * (y - x) ^ 2 * (2 * y + x) := by
        have : 0 ≤ 2 * y + x := by linarith
        positivity
      have a3 : 0 ≤ (y - x) ^ 4 := by positivity
      linarith
    nlinarith [mul_nonneg (pow_nonneg he 3) h1, hid]

/-- Convexity bounds for the degree-9 monomial: for `0 ≤ x ≤ y`,
`0 ≤ 9y⁸(y−x) − (y⁹−x⁹) ≤ 36y⁷(y−x)²`. -/
lemma monomial9_bounds (x y : ℝ) (hx : 0 ≤ x) (hxy : x ≤ y) :
    0 ≤ 9 * y ^ 8 * (y - x) - (y ^ 9 - x ^ 9) ∧
    9 * y ^ 8 * (y - x) - (y ^ 9 - x ^ 9) ≤ 36 * y ^ 7 * (y - x) ^ 2 := by
  have hy : 0 ≤ y := le_trans hx hxy
  have he : 0 ≤ y - x := sub_nonneg.2 hxy
  constructor
  · have hid : 9 * y ^ 8 * (y - x) - (y ^ 9 - x ^ 9) =
        (y - x) ^ 2 * (8 * y ^ 7 + 7 * y ^ 6 * x + 6 * y ^ 5 * x ^ 2 +
          5 * y ^ 4 * x ^ 3 + 4 * y ^ 3 * x ^ 4 + 3 * y ^ 2 * x ^ 5 +
          2 * y * x ^ 6 + x ^ 7) := by
      ring
    rw [hid]
    have h1 : 0 ≤ 8 * y ^ 7 + 7 * y ^ 6 * x + 6 * y ^ 5 * x ^ 2 +
        5 * y ^ 4 * x ^ 3 + 4 * y ^ 3 * x ^ 4 + 3 * y ^ 2 * x ^ 5 +
        2 * y * x ^ 6 + x ^ 7 := by positivity
    exact mul_nonneg (sq_nonneg _) h1
  · have hid : 36 * y ^ 7 * (y - x) ^ 2 - (9 * y ^ 8 * (y - x) - (y ^ 9 - x ^ 9)) =
        (y - x) ^ 3 * ((189 / 4) * y ^ 4 * ((y - x) - (4 / 3) * y) ^ 2 +
          (112 / 5) * y ^ 2 * (y - x) ^ 2 * ((y - x) - (15 / 8) * y) ^ 2 +
          (y - x) ^ 4 * ((23 / 5) * y ^ 2 + 9 * y * x + (y - x) ^ 2)) := by
      ring
    have h1 : 0 ≤ (189 / 4) * y ^ 4 * ((y - x) - (4 / 3) * y) ^ 2 +
        (112 / 5) * y ^ 2 * (y - x) ^ 2 * ((y - x) - (15 / 8) * y) ^ 2 +
        (y - x) ^ 4 * ((23 / 5) * y ^ 2 + 9 * y * x + (y - x) ^ 2) := by
      have a1 : 0 ≤ (189 / 4) * y ^ 4 * ((y - x) - (4 / 3) * y) ^ 2 := by positivity
      have a2 : 0 ≤ (112 / 5) * y ^ 2 * (y - x) ^ 2 * ((y - x) - (15 / 8) * y) ^ 2 := by
        positivity
      have a3 : 0 ≤ (y - x) ^ 4 * ((23 / 5) * y ^ 2 + 9 * y * x + (y - x) ^ 2) := by
        have : 0 ≤ (23 / 5) * y ^ 2 + 9 * y * x + (y - x) ^ 2 := by positivity
        positivity
      linarith
    nlinarith [mul_nonneg (pow_nonneg he 3) h1, hid]

/-- One Newton step from the right of the root, for nonnegative
coefficients `≤ 1/5` and iterates `≤ 273/512`: the update stays right of
the true angle `x`, decreases, keeps the step nonnegative, and contracts
the error quadratically with constant `9/10`. -/
lemma newton_step_bounds (k1 k2 k3 k4 x y : ℝ)
    (hk1 : 0 ≤ k1) (hk1u : k1 ≤ 1 / 5) (hk2 : 0 ≤ k2) (hk2u : k2 ≤ 1 / 5)
    (hk3 : 0 ≤ k3) (hk3u : k3 ≤ 1 / 5) (hk4 : 0 ≤ k4) (hk4u : k4 ≤ 1 / 5)
    (hx0 : 0 < x) (hxy : x ≤ y) (hyB : y ≤ 273 / 512) :
    x ≤ y - (thetaPoly k1 k2 k3 k4 y - thetaPoly k1 k2 k3 k4 x) /
        thetaPolyDeriv k1 k2 k3 k4 y ∧
    y - (thetaPoly k1 k2 k3 k4 y - thetaPoly k1 k2 k3 k4 x) /
        thetaPolyDeriv k1 k2 k3 k4 y ≤ y ∧
    (y - (thetaPoly k1 k2 k3 k4 y - thetaPoly k1 k2 k3 k4 x) /
        thetaPolyDeriv k1 k2 k3 k4 y) - x ≤ (9 / 10) * (y - x) ^ 2 ∧
    0 ≤ (thetaPoly k1 k2 k3 k4 y - thetaPoly k1 k2 k3 k4 x) /
        thetaPolyDeriv k1 k2 k3 k4 y := by
  have hy0 : (0 : ℝ) < y := lt_of_lt_of_le hx0 hxy
  have hd1 : (1 : ℝ) ≤ thetaPolyDeriv k1 k2 k3 k4 y := by
    unfold thetaPolyDeriv
    nlinarith [mul_nonneg hk1 (sq_nonneg y), mul_nonneg hk2 (pow_nonneg hy0.le 4),
      mul_nonneg hk3 (pow_nonneg hy0.le 6), mul_nonneg hk4 (pow_nonneg hy0.le 8)]
  have hd0 : (0 : ℝ) < thetaPolyDeriv k1 k2 k3 k4 y := lt_of_lt_of_le one_pos hd1
  have hmono : thetaPoly k1 k2 k3 k4 x ≤ thetaPoly k1 k2 k3 k4 y := by
    have h3 := pow_le_pow_left hx0.le hxy 3
    have h5 := pow_le_pow_left hx0.le hxy 5
    have h7 := pow_le_pow_left hx0.le hxy 7
    have h9 := pow_le_pow_left hx0.le hxy 9
    unfold thetaPoly
    nlinarith [mul_nonneg hk1 (sub_nonneg.2 h3), mul_nonneg hk2 (sub_nonneg.2 h5),
      mul_nonneg hk3 (sub_nonneg.2 h7), mul_nonneg hk4 (sub_nonneg.2 h9)]
  have hfix0 : 0 ≤ (thetaPoly k1 k2 k3 k4 y - thetaPoly k1 k2 k3 k4 x) /
      thetaPolyDeriv k1 k2 k3 k4 y :=
    div_nonneg (sub_nonneg.2 hmono) hd0.le
  -- the numerator of the post-step error
  have hnum_id : thetaPolyDeriv k1 k2 k3 k4 y * (y - x) -
      (thetaPoly k1 k2 k3 k4 y - thetaPoly k1 k2 k3 k4 x) =
      k1 * (3 * y ^ 2 * (y - x) - (y ^ 3 - x ^ 3)) +
      k2 * (5 * y ^ 4 * (y - x) - (y ^ 5 - x ^ 5)) +
      k3 * (7 * y ^ 6 * (y - x) - (y ^ 7 - x ^ 7)) +
      k4 * (9 * y ^ 8 * (y - x) - (y ^ 9 - x ^ 9)) := by
    unfold thetaPoly thetaPolyDeriv
    ring
  obtain ⟨m3l, m3u⟩ := monomial3_bounds x y hx0.le hxy
  obtain ⟨m5l, m5u⟩ := monomial5_bounds x y hx0.le hxy
  obtain ⟨m7l, m7u⟩ := monomial7_bounds x y hx0.le hxy
  obtain ⟨m9l, m9u⟩ := monomial9_bounds x y hx0.le hxy
  have hnum_low : 0 ≤ thetaPolyDeriv k1 k2 k3 k4 y * (y - x) -
      (thetaPoly k1 k2 k3 k4 y - thetaPoly k1 k2 k3 k4 x) := by
    rw [hnum_id]
    have a1 := mul_nonneg hk1 m3l
    have a2 := mul_nonneg hk2 m5l
    have a3 := mul_nonneg hk3 m7l
    have a4 := mul_nonneg hk4 m9l
    linarith
  -- the contraction constant
  have hM : 3 * k1 * y + 10 * k2 * y ^ 3 + 21 * k3 * y ^ 5 + 36 * k4 * y ^ 7 ≤
      9 / 10 := by
    have hy3 : y ^ 3 ≤ (273 / 512 : ℝ) ^ 3 := pow_le_pow_left hy0.le hyB 3
    have hy5 : y ^ 5 ≤ (273 / 512 : ℝ) ^ 5 := pow_le_pow_left hy0.le hyB 5
    have hy7 : y ^ 7 ≤ (273 / 512 : ℝ) ^ 7 := pow_le_pow_left hy0.le hyB 7
    have t1 : k1 * y ≤ (1 / 5) * (273 / 512) :=
      mul_le_mul hk1u hyB hy0.le (by norm_num)
    have t2 : k2 * y ^ 3 ≤ (1 / 5) * (273 / 512 : ℝ) ^ 3 :=
      mul_le_mul hk2u hy3 (pow_nonneg hy0.le 3) (by norm_num)
    have t3 : k3 * y ^ 5 ≤ (1 / 5) * (273 / 512 : ℝ) ^ 5 :=
      mul_le_mul hk3u hy5 (pow_nonneg hy0.le 5) (by norm_num)
    have t4 : k4 * y ^ 7 ≤ (1 / 5) * (273 / 512 : ℝ) ^ 7 :=
      mul_le_mul hk4u hy7 (pow_nonneg hy0.le 7) (by norm_num)
    have hsum : 3 * ((1 / 5) * (273 / 512 : ℝ)) +
        10 * ((1 / 5) * (273 / 512 : ℝ) ^ 3) +
        21 * ((1 / 5) * (273 / 512 : ℝ) ^ 5) +
        36 * ((1 / 5) * (273 / 512 : ℝ) ^ 7) ≤ 9 / 10 := by norm_num
    linarith
  have hnum_up : thetaPolyDeriv k1 k2 k3 k4 y * (y - x) -
      (thetaPoly k1 k2 k3 k4 y - thetaPoly k1 k2 k3 k4 x) ≤
      (9 / 10) * (y - x) ^ 2 := by
    rw [hnum_id]
    have a1 := mul_le_mul_of_nonneg_left m3u hk1
    have a2 := mul_le_mul_of_nonneg_left m5u hk2
    have a3 := mul_le_mul_of_nonneg_left m7u hk3
    have a4 := mul_le_mul_of_nonneg_left m9u hk4
    have hcomb : k1 * (3 * y * (y - x) ^ 2) + k2 * (10 * y ^ 3 * (y - x) ^ 2) +
        k3 * (21 * y ^ 5 * (y - x) ^ 2) + k4 * (36 * y ^ 7 * (y - x) ^ 2) =
        (3 * k1 * y + 10 * k2 * y ^ 3 + 21 * k3 * y ^ 5 + 36 * k4 * y ^ 7) *
          (y - x) ^ 2 := by ring
    have hfin : (3 * k1 * y + 10 * k2 * y ^ 3 + 21 * k3 * y ^ 5 + 36 * k4 * y ^ 7) *
        (y - x) ^ 2 ≤ (9 / 10) * (y - x) ^ 2 :=
      mul_le_mul_of_nonneg_right hM (sq_nonneg _)
    linarith
  -- the post-step error equals that numerator over the derivative
  have he' : (y - (thetaPoly k1 k2 k3 k4 y - thetaPoly k1 k2 k3 k4 x) /
      thetaPolyDeriv k1 k2 k3 k4 y) - x =
      (thetaPolyDeriv k1 k2 k3 k4 y * (y - x) -
        (thetaPoly k1 k2 k3 k4 y - thetaPoly k1 k2 k3 k4 x)) /
      thetaPolyDeriv k1 k2 k3 k4 y := by
    field_simp
    ring
  refine ⟨?_, sub_le_self y hfix0, ?_, hfix0⟩
  · have : 0 ≤ (y - (thetaPoly k1 k2 k3 k4 y - thetaPoly k1 k2 k3 k4 x) /
        thetaPolyDeriv k1 k2 k3 k4 y) - x := by
      rw [he']
      exact div_nonneg hnum_low hd0.le
    linarith
  · rw [he']
    calc (thetaPolyDeriv k1 k2 k3 k4 y * (y - x) -
          (thetaPoly k1 k2 k3 k4 y - thetaPoly k1 k2 k3 k4 x)) /
          thetaPolyDeriv k1 k2 k3 k4 y ≤
        thetaPolyDeriv k1 k2 k3 k4 y * (y - x) -
          (thetaPoly k1 k2 k3 k4 y - thetaPoly k1 k2 k3 k4 x) :=
          div_le_self hnum_low hd1
      _ ≤ (9 / 10) * (y - x) ^ 2 := hnum_up

/-- When the loop breaks (step magnitude below `1e-10`), the returned
iterate is within `1e-6` of the true angle: the quadratic contraction
forces the post-step error below the step size scale. -/
lemma newton_stop_bound (k1 k2 k3 k4 x y : ℝ)
    (hk1 : 0 ≤ k1) (hk1u : k1 ≤ 1 / 5) (hk2 : 0 ≤ k2) (hk2u : k2 ≤ 1 / 5)
    (hk3 : 0 ≤ k3) (hk3u : k3 ≤ 1 / 5) (hk4 : 0 ≤ k4) (hk4u : k4 ≤ 1 / 5)
    (hx0 : 0 < x) (hxy : x ≤ y) (hyB : y ≤ 273 / 512) (he0 : y - x ≤ 17 / 512)
    (hstop : |(thetaPoly k1 k2 k3 k4 y - thetaPoly k1 k2 k3 k4 x) /
      thetaPolyDeriv k1 k2 k3 k4 y| < 1e-10) :
    x ≤ y - (thetaPoly k1 k2 k3 k4 y - thetaPoly k1 k2 k3 k4 x) /
        thetaPolyDeriv k1 k2 k3 k4 y ∧
    (y - (thetaPoly k1 k2 k3 k4 y - thetaPoly k1 k2 k3 k4 x) /
        thetaPolyDeriv k1 k2 k3 k4 y) - x ≤ 1e-6 := by
  obtain ⟨hlow, hup, hcontr, hfix0⟩ := newton_step_bounds k1 k2 k3 k4 x y
    hk1 hk1u hk2 hk2u hk3 hk3u hk4 hk4u hx0 hxy hyB
  set fix := (thetaPoly k1 k2 k3 k4 y - thetaPoly k1 k2 k3 k4 x) /
    thetaPolyDeriv k1 k2 k3 k4 y with hfixdef
  have hfixlt : fix < 1e-10 := lt_of_abs_lt hstop
  set eNew := (y - fix) - x with heNewDef
  have heNew0 : 0 ≤ eNew := by rw [heNewDef]; linarith
  have hee : y - x = eNew + fix := by rw [heNewDef]; ring
  have hbound : eNew ≤ (9 / 10) * (eNew + fix) ^ 2 := by
    rw [heNewDef, ← hee]
    exact hcontr
  have heNewSmall : eNew ≤ 17 / 512 := by
    rw [heNewDef]
    linarith
  refine ⟨hlow, ?_⟩
  show eNew ≤ 1e-6
  nlinarith [hbound, heNewSmall, heNew0, hfix0, hfixlt, sq_nonneg (eNew + fix),
    mul_nonneg heNew0 heNew0]

/-- Once an iterate is within `1e-6` of the true angle, every further
iteration of the loop keeps it there (and right of the angle). -/
lemma newton_keep_small (k1 k2 k3 k4 x : ℝ)
    (hk1 : 0 ≤ k1) (hk1u : k1 ≤ 1 / 5) (hk2 : 0 ≤ k2) (hk2u : k2 ≤ 1 / 5)
    (hk3 : 0 ≤ k3) (hk3u : k3 ≤ 1 / 5) (hk4 : 0 ≤ k4) (hk4u : k4 ≤ 1 / 5)
    (hx0 : 0 < x) :
    ∀ (n : ℕ) (y : ℝ), x ≤ y → y ≤ 273 / 512 → y - x ≤ 1e-6 →
      x ≤ newtonIter k1 k2 k3 k4 (thetaPoly k1 k2 k3 k4 x) n y ∧
      newtonIter k1 k2 k3 k4 (thetaPoly k1 k2 k3 k4 x) n y - x ≤ 1e-6 := by
  intro n
  induction n with
  | zero =>
    intro y hxy hyB hsmall
    exact ⟨hxy, hsmall⟩
  | succ n ih =>
    intro y hxy hyB hsmall
    obtain ⟨hlow, hup, hcontr, hfix0⟩ := newton_step_bounds k1 k2 k3 k4 x y
      hk1 hk1u hk2 hk2u hk3 hk3u hk4 hk4u hx0 hxy hyB
    have hstep_small : (y - (thetaPoly k1 k2 k3 k4 y - thetaPoly k1 k2 k3 k4 x) /
        thetaPolyDeriv k1 k2 k3 k4 y) - x ≤ 1e-6 := by
      nlinarith [hcontr, hsmall, sub_nonneg.2 hxy]
    rw [newtonIter_succ]
    split_ifs with hstop
    · exact ⟨hlow, hstep_small⟩
    · exact ih _ hlow (by linarith) hstep_small

set_option maxHeartbeats 1600000 in
/-- Main convergence: for nonnegative coefficients `≤ 1/5` and a true
angle `θ ≤ 1/2`, twenty Newton iterations started at `θ_d = distort(θ)`
land within `1e-6` of `θ` (two contractions already suffice; an early
break is covered by the stop bound). -/
lemma newton_main (k1 k2 k3 k4 x : ℝ)
    (hk1 : 0 ≤ k1) (hk1u : k1 ≤ 1 / 5) (hk2 : 0 ≤ k2) (hk2u : k2 ≤ 1 / 5)
    (hk3 : 0 ≤ k3) (hk3u : k3 ≤ 1 / 5) (hk4 : 0 ≤ k4) (hk4u : k4 ≤ 1 / 5)
    (hx0 : 0 < x) (hxh : x ≤ 1 / 2) :
    x ≤ newtonIter k1 k2 k3 k4 (thetaPoly k1 k2 k3 k4 x) 20
        (thetaPoly k1 k2 k3 k4 x) ∧
    newtonIter k1 k2 k3 k4 (thetaPoly k1 k2 k3 k4 x) 20
        (thetaPoly k1 k2 k3 k4 x) - x ≤ 1e-6 := by
  set c := thetaPoly k1 k2 k3 k4 x with hcdef
  -- starting error and bound on the start point
  have hx3 : x ^ 3 ≤ (1 / 2 : ℝ) ^ 3 := pow_le_pow_left hx0.le hxh 3
  have hx5 : x ^ 5 ≤ (1 / 2 : ℝ) ^ 5 := pow_le_pow_left hx0.le hxh 5
  have hx7 : x ^ 7 ≤ (1 / 2 : ℝ) ^ 7 := pow_le_pow_left hx0.le hxh 7
  have hx9 : x ^ 9 ≤ (1 / 2 : ℝ) ^ 9 := pow_le_pow_left hx0.le hxh 9
  have hce : c - x = k1 * x ^ 3 + k2 * x ^ 5 + k3 * x ^ 7 + k4 * x ^ 9 := by
    rw [hcdef]
    unfold thetaPoly
    ring
  have hcx : x ≤ c := by
    have a1 := mul_nonneg hk1 (pow_nonneg hx0.le 3)
    have a2 := mul_nonneg hk2 (pow_nonneg hx0.le 5)
    have a3 := mul_nonneg hk3 (pow_nonneg hx0.le 7)
    have a4 := mul_nonneg hk4 (pow_nonneg hx0.le 9)
    nlinarith [hce]
  have he0 : c - x ≤ 17 / 512 := by
    have t1 : k1 * x ^ 3 ≤ (1 / 5) * (1 / 2 : ℝ) ^ 3 :=
      mul_le_mul hk1u hx3 (pow_nonneg hx0.le 3) (by norm_num)
    have t2 : k2 * x ^ 5 ≤ (1 / 5) * (1 / 2 : ℝ) ^ 5 :=
      mul_le_mul hk2u hx5 (pow_nonneg hx0.le 5) (by norm_num)
    have t3 : k3 * x ^ 7 ≤ (1 / 5) * (1 / 2 : ℝ) ^ 7 :=
      mul_le_mul hk3u hx7 (pow_nonneg hx0.le 7) (by norm_num)
    have t4 : k4 * x ^ 9 ≤ (1 / 5) * (1 / 2 : ℝ) ^ 9 :=
      mul_le_mul hk4u hx9 (pow_nonneg hx0.le 9) (by norm_num)
    rw [hce]
    have : (1 / 5) * (1 / 2 : ℝ) ^ 3 + (1 / 5) * (1 / 2 : ℝ) ^ 5 +
        (1 / 5) * (1 / 2 : ℝ) ^ 7 + (1 / 5) * (1 / 2 : ℝ) ^ 9 ≤ 17 / 512 := by
      norm_num
    linarith
  have hcB : c ≤ 273 / 512 := by linarith
  -- first step
  have h20 : newtonIter k1 k2 k3 k4 c 20 c =
      if |(thetaPoly k1 k2 k3 k4 c - c) / thetaPolyDeriv k1 k2 k3 k4 c| < 1e-10
      then c - (thetaPoly k1 k2 k3 k4 c - c) / thetaPolyDeriv k1 k2 k3 k4 c
      else newtonIter k1 k2 k3 k4 c 19
        (c - (thetaPoly k1 k2 k3 k4 c - c) / thetaPolyDeriv k1 k2 k3 k4 c) := by
    have h := newtonIter_succ k1 k2 k3 k4 c 19 c
    norm_num at h ⊢
    exact h
  obtain ⟨s1low, s1up, s1contr, s1fix0⟩ := newton_step_bounds k1 k2 k3 k4 x c
    hk1 hk1u hk2 hk2u hk3 hk3u hk4 hk4u hx0 hcx hcB
  rw [h20]
  have hPxc : thetaPoly k1 k2 k3 k4 c - c =
      thetaPoly k1 k2 k3 k4 c - thetaPoly k1 k2 k3 k4 x := by rw [hcdef]
  rw [hPxc]
  split_ifs with hstop1
  · exact newton_stop_bound k1 k2 k3 k4 x c
      hk1 hk1u hk2 hk2u hk3 hk3u hk4 hk4u hx0 hcx hcB he0 hstop1
  · -- second step from the once-contracted iterate
    set y1 := c - (thetaPoly k1 k2 k3 k4 c - thetaPoly k1 k2 k3 k4 x) /
      thetaPolyDeriv k1 k2 k3 k4 c with hy1def
    have hy1B : y1 ≤ 273 / 512 := by rw [hy1def]; linarith
    have he1 : y1 - x ≤ 9 / 10 * (17 / 512) ^ 2 := by
      rw [hy1def]
      nlinarith [s1contr, he0, sub_nonneg.2 hcx]
    have hxy1 : x ≤ y1 := by rw [hy1def]; exact s1low
    have he1' : y1 - x ≤ 17 / 512 := by
      have : (9 / 10 : ℝ) * (17 / 512) ^ 2 ≤ 17 / 512 := by norm_num
      linarith
    have h19 : newtonIter k1 k2 k3 k4 c 19 y1 =
        if |(thetaPoly k1 k2 k3 k4 y1 - c) / thetaPolyDeriv k1 k2 k3 k4 y1| < 1e-10
        then y1 - (thetaPoly k1 k2 k3 k4 y1 - c) / thetaPolyDeriv k1 k2 k3 k4 y1
        else newtonIter k1 k2 k3 k4 c 18
          (y1 - (thetaPoly k1 k2 k3 k4 y1 - c) / thetaPolyDeriv k1 k2 k3 k4 y1) := by
      have h := newtonIter_succ k1 k2 k3 k4 c 18 y1
      norm_num at h ⊢
      exact h
    have hPy1 : thetaPoly k1 k2 k3 k4 y1 - c =
        thetaPoly k1 k2 k3 k4 y1 - thetaPoly k1 k2 k3 k4 x := by rw [hcdef]
    rw [h19, hPy1]
    split_ifs with hstop2
    · exact newton_stop_bound k1 k2 k3 k4 x y1
        hk1 hk1u hk2 hk2u hk3 hk3u hk4 hk4u hx0 hxy1 hy1B he1' hstop2
    · obtain ⟨s2low, s2up, s2contr, s2fix0⟩ := newton_step_bounds k1 k2 k3 k4 x y1
        hk1 hk1u hk2 hk2u hk3 hk3u hk4 hk4u hx0 hxy1 hy1B
      set y2 := y1 - (thetaPoly k1 k2 k3 k4 y1 - thetaPoly k1 k2 k3 k4 x) /
        thetaPolyDeriv k1 k2 k3 k4 y1 with hy2def
      have he2 : y2 - x ≤ 1e-6 := by
        rw [hy2def]
        nlinarith [s2contr, he1, sub_nonneg.2 hxy1]
      have hy2B : y2 ≤ 273 / 512 := by
        rw [hy2def]
        linarith
      exact newton_keep_small k1 k2 k3 k4 x
        hk1 hk1u hk2 hk2u hk3 hk3u hk4 hk4u hx0 18 y2 s2low hy2B he2

/-- The forward-distorted angle of `θ ≤ 1/2` under nonnegative
coefficients `≤ 1/5` lies in `[θ, 273/512]`. -/
lemma distort_bounds (k1 k2 k3 k4 θ : ℝ)
    (hk1 : 0 ≤ k1) (hk1u : k1 ≤ 1 / 5) (hk2 : 0 ≤ k2) (hk2u : k2 ≤ 1 / 5)
    (hk3 : 0 ≤ k3) (hk3u : k3 ≤ 1 / 5) (hk4 : 0 ≤ k4) (hk4u : k4 ≤ 1 / 5)
    (hθ0 : 0 < θ) (hθ : θ ≤ 1 / 2) :
    θ ≤ thetaPoly k1 k2 k3 k4 θ ∧ thetaPoly k1 k2 k3 k4 θ ≤ 273 / 512 := by
  have hx3 : θ ^ 3 ≤ (1 / 2 : ℝ) ^ 3 := pow_le_pow_left hθ0.le hθ 3
  have hx5 : θ ^ 5 ≤ (1 / 2 : ℝ) ^ 5 := pow_le_pow_left hθ0.le hθ 5
  have hx7 : θ ^ 7 ≤ (1 / 2 : ℝ) ^ 7 := pow_le_pow_left hθ0.le hθ 7
  have hx9 : θ ^ 9 ≤ (1 / 2 : ℝ) ^ 9 := pow_le_pow_left hθ0.le hθ 9
  have hce : thetaPoly k1 k2 k3 k4 θ - θ =
      k1 * θ ^ 3 + k2 * θ ^ 5 + k3 * θ ^ 7 + k4 * θ ^ 9 := by
    unfold thetaPoly
    ring
  have a1 := mul_nonneg hk1 (pow_nonneg hθ0.le 3)
  have a2 := mul_nonneg hk2 (pow_nonneg hθ0.le 5)
  have a3 := mul_nonneg hk3 (pow_nonneg hθ0.le 7)
  have a4 := mul_nonneg hk4 (pow_nonneg hθ0.le 9)
  have t1 : k1 * θ ^ 3 ≤ (1 / 5) * (1 / 2 : ℝ) ^ 3 :=
    mul_le_mul hk1u hx3 (pow_nonneg hθ0.le 3) (by norm_num)
  have t2 : k2 * θ ^ 5 ≤ (1 / 5) * (1 / 2 : ℝ) ^ 5 :=
    mul_le_mul hk2u hx5 (pow_nonneg hθ0.le 5) (by norm_num)
  have t3 : k3 * θ ^ 7 ≤ (1 / 5) * (1 / 2 : ℝ) ^ 7 :=
    mul_le_mul hk3u hx7 (pow_nonneg hθ0.le 7) (by norm_num)
  have t4 : k4 * θ ^ 9 ≤ (1 / 5) * (1 / 2 : ℝ) ^ 9 :=
    mul_le_mul hk4u hx9 (pow_nonneg hθ0.le 9) (by norm_num)
  constructor
  · nlinarith [hce]
  · nlinarith [hce, t1, t2, t3, t4]

/-- **C1 amended.** For `θ ∈ (0, 1/2]` and nonnegative coefficients
below `0.2` (so that no clipping occurs and the Newton iteration starts
inside its quadratic-convergence basin), feeding `θ_d = distort(θ, D)`
into the Newton inverse recovers `θ` to within `1e-6`. -/
theorem C1_amended_roundtrip_converges (k1 k2 k3 k4 θ : ℝ)
    (hk1 : 0 ≤ k1) (hk1u : k1 < 1 / 5) (hk2 : 0 ≤ k2) (hk2u : k2 < 1 / 5)
    (hk3 : 0 ≤ k3) (hk3u : k3 < 1 / 5) (hk4 : 0 ≤ k4) (hk4u : k4 < 1 / 5)
    (hθ0 : 0 < θ) (hθ : θ ≤ 1 / 2) :
    |undistortAngle k1 k2 k3 k4 (thetaPoly k1 k2 k3 k4 θ) - θ| ≤ 1e-6 := by
  obtain ⟨hcx, hcB⟩ := distort_bounds k1 k2 k3 k4 θ
    hk1 hk1u.le hk2 hk2u.le hk3 hk3u.le hk4 hk4u.le hθ0 hθ
  have hπ : (3 : ℝ) < Real.pi := Real.pi_gt_three
  have hclip : clipTheta (thetaPoly k1 k2 k3 k4 θ) = thetaPoly k1 k2 k3 k4 θ := by
    unfold clipTheta
    rw [max_eq_right (by linarith), min_eq_left (by linarith)]
  obtain ⟨hmain1, hmain2⟩ := newton_main k1 k2 k3 k4 θ
    hk1 hk1u.le hk2 hk2u.le hk3 hk3u.le hk4 hk4u.le hθ0 hθ
  unfold undistortAngle
  rw [hclip, abs_le]
  constructor
  · linarith
  · linarith

/-- Witness for the amended C1 at `θ = 1/4`, `D = (1/10, 0, 0, 0)`. -/
theorem C1_amended_roundtrip_converges_witness :
    ((0 : ℝ) ≤ 1 / 10 ∧ (1 / 10 : ℝ) < 1 / 5 ∧ (0 : ℝ) < 1 / 4 ∧
      (1 / 4 : ℝ) ≤ 1 / 2) ∧
    |undistortAngle (1 / 10) 0 0 0 (thetaPoly (1 / 10) 0 0 0 (1 / 4)) - 1 / 4| ≤
      1e-6 := by
  refine ⟨⟨by norm_num, by norm_num, by norm_num, by norm_num⟩, ?_⟩
  exact C1_amended_roundtrip_converges (1 / 10) 0 0 0 (1 / 4)
    (by norm_num) (by norm_num) (by norm_num) (by norm_num)
    (by norm_num) (by norm_num) (by norm_num) (by norm_num)
    (by norm_num) (by norm_num)

/-- The Newton map of the non-monotone calibration `k1 = −0.19` with
target `θ_d = distort(1.57) = 0.83472033` traps `[1/2, 6/5]`. -/
lemma cex1Step (θ : ℝ) (h1 : 1 / 2 ≤ θ) (h2 : θ ≤ 6 / 5) :
    1 / 2 ≤ θ - (thetaPoly (-(19 / 100)) 0 0 0 θ - 83472033 / 100000000) /
        thetaPolyDeriv (-(19 / 100)) 0 0 0 θ ∧
    θ - (thetaPoly (-(19 / 100)) 0 0 0 θ - 83472033 / 100000000) /
        thetaPolyDeriv (-(19 / 100)) 0 0 0 θ ≤ 6 / 5 := by
  have hsq : θ ^ 2 ≤ 36 / 25 := by nlinarith
  have hd : (0 : ℝ) < thetaPolyDeriv (-(19 / 100)) 0 0 0 θ := by
    unfold thetaPolyDeriv
    nlinarith [hsq]
  constructor
  · have hnum : thetaPoly (-(19 / 100)) 0 0 0 θ - 83472033 / 100000000 ≤
        (θ - 1 / 2) * thetaPolyDeriv (-(19 / 100)) 0 0 0 θ := by
      unfold thetaPoly thetaPolyDeriv
      nlinarith [mul_nonneg (by linarith : (0 : ℝ) ≤ 6 / 5 - θ) (sq_nonneg θ),
        mul_nonneg (by linarith : (0 : ℝ) ≤ 6 / 5 - θ)
          (by linarith : (0 : ℝ) ≤ 6 / 5 + θ)]
    have h := (div_le_iff hd).mpr hnum
    linarith
  · have hnum : (θ - 6 / 5) * thetaPolyDeriv (-(19 / 100)) 0 0 0 θ ≤
        thetaPoly (-(19 / 100)) 0 0 0 θ - 83472033 / 100000000 := by
      unfold thetaPoly thetaPolyDeriv
      nlinarith [mul_nonneg (sq_nonneg (θ - 6 / 5))
        (by linarith : (0 : ℝ) ≤ θ + 3 / 5)]
    have h := (le_div_iff hd).mpr hnum
    linarith

/-- Every Newton iterate of that calibration stays in `[1/2, 6/5]`. -/
lemma cex1Loop : ∀ (n : ℕ) (θ : ℝ), 1 / 2 ≤ θ → θ ≤ 6 / 5 →
    1 / 2 ≤ newtonIter (-(19 / 100)) 0 0 0 (83472033 / 100000000) n θ ∧
    newtonIter (-(19 / 100)) 0 0 0 (83472033 / 100000000) n θ ≤ 6 / 5 := by
  intro n
  induction n with
  | zero => intro θ h1 h2; exact ⟨h1, h2⟩
  | succ n ih =>
    intro θ h1 h2
    rw [newtonIter_succ]
    obtain ⟨g1, g2⟩ := cex1Step θ h1 h2
    split_ifs with hstop
    · exact ⟨g1, g2⟩
    · exact ih _ g1 g2

/-- **C1 counterexample.** At `θ = 1.57 ∈ (0, π/2)` with
`D = (−0.19, 0, 0, 0)` (all `|k_i| < 0.2`), the distortion polynomial is
non-monotone: `θ_d = distort(1.57) ≈ 0.8347` also has a preimage near
`1.066`, and Newton started at `θ_d` converges to that one.  Every
iterate stays in `[1/2, 6/5]`, so the recovered angle misses `1.57` by
more than `0.37`, far beyond `1e-6`. -/
theorem C1_counterexample_roundtrip_fails :
    ((0 : ℝ) < 157 / 100 ∧ (157 / 100 : ℝ) < Real.pi / 2 ∧
      |(-(19 / 100) : ℝ)| < 1 / 5) ∧
    ¬(|undistortAngle (-(19 / 100)) 0 0 0
        (thetaPoly (-(19 / 100)) 0 0 0 (157 / 100)) - 157 / 100| ≤ 1e-6) := by
  have hπ : (3.141592 : ℝ) < Real.pi := Real.pi_gt_3141592
  constructor
  · refine ⟨by norm_num, by linarith, ?_⟩
    rw [abs_of_neg (by norm_num : (-(19 / 100) : ℝ) < 0)]
    norm_num
  · have hc : thetaPoly (-(19 / 100)) 0 0 0 (157 / 100) =
        (83472033 / 100000000 : ℝ) := by
      unfold thetaPoly
      norm_num
    have hclip : clipTheta ((83472033 / 100000000 : ℝ)) = 83472033 / 100000000 := by
      unfold clipTheta
      rw [max_eq_right (by linarith), min_eq_left (by linarith)]
    unfold undistortAngle
    rw [hc, hclip]
    have hloop := cex1Loop 20 (83472033 / 100000000) (by norm_num) (by norm_num)
    intro habs
    obtain ⟨ha, hb⟩ := abs_le.mp habs
    linarith [hloop.2]
